import Mathlib

/-!
Shallow embedding of the two source modules of this repository:

* `src/hugegraph-llm/src/hugegraph_llm/operators/hugegraph_op/commit_to_hugegraph.py`
  (class `CommitToKg`): schema-validated commit of vertices/edges to a graph
  store, with a schema-free fallback mode;
* `src/hugegraph-llm/src/hugegraph_llm/operators/common_op/merge_dedup_rerank.py`
  (class `MergeDedupRerank`): dedup + lexical-score rerank of candidate lists.

External collaborators are modelled as oracles: the graph-store client is a
function from issued calls to responses, and the BLEU scorer (jieba + nltk,
external libraries) is an abstract score function into `ℚ`.  Python `dict`s
are modelled as association lists with Python's insertion-order semantics,
and Python runtime values as the inductive `PyVal` below.
-/

/-- Model of a Python runtime value as it occurs in property dictionaries.
Float payloads are modelled as rationals: no claim depends on float
arithmetic, only on the `isinstance` tag, on truthiness of zero, and on the
`0.0` default. -/
inductive PyVal where
  | pyBool : Bool → PyVal
  | pyInt : Int → PyVal
  | pyFloat : ℚ → PyVal
  | pyStr : String → PyVal
  | pyNone : PyVal
  | pyList : List PyVal → PyVal

/-- Python truthiness (`bool(v)`): `False`, `0`, `0.0`, `""`, `None` and `[]`
are falsy, everything else modelled here is truthy. -/
def pyTruthy : PyVal → Bool
  | .pyBool b => b
  | .pyInt n => n != 0
  | .pyFloat q => q != 0
  | .pyStr s => s != ""
  | .pyNone => false
  | .pyList l => !l.isEmpty

/-- Python `isinstance(v, bool)`. -/
def isinstance_bool : PyVal → Bool
  | .pyBool _ => true
  | _ => false

/-- Python `isinstance(v, int)`.  In Python `bool` is a subclass of `int`,
so a boolean value also satisfies this check. -/
def isinstance_int : PyVal → Bool
  | .pyBool _ => true
  | .pyInt _ => true
  | _ => false

/-- Python `isinstance(v, float)`. -/
def isinstance_float : PyVal → Bool
  | .pyFloat _ => true
  | _ => false

/-- Python `isinstance(v, str)`. -/
def isinstance_str : PyVal → Bool
  | .pyStr _ => true
  | _ => false

/-- Python `isinstance(v, list)`. -/
def isinstance_list : PyVal → Bool
  | .pyList _ => true
  | _ => false

/-- Modelled from the spec: the `PropertyDataType` enum of module
`hugegraph_llm.enums.property_data_type` is not among the sources; the spec
lists the ten declared data types (boolean, byte, int, long, float, double,
text, blob, date, uuid).  The concrete enum strings are opaque labels here;
only their pairwise distinctness matters. -/
def PropertyDataType.BOOLEAN : String := "BOOLEAN"

/-- Modelled from the spec: see `PropertyDataType.BOOLEAN`. -/
def PropertyDataType.BYTE : String := "BYTE"

/-- Modelled from the spec: see `PropertyDataType.BOOLEAN`. -/
def PropertyDataType.INT : String := "INT"

/-- Modelled from the spec: see `PropertyDataType.BOOLEAN`. -/
def PropertyDataType.LONG : String := "LONG"

/-- Modelled from the spec: see `PropertyDataType.BOOLEAN`. -/
def PropertyDataType.FLOAT : String := "FLOAT"

/-- Modelled from the spec: see `PropertyDataType.BOOLEAN`. -/
def PropertyDataType.DOUBLE : String := "DOUBLE"

/-- Modelled from the spec: see `PropertyDataType.BOOLEAN`. -/
def PropertyDataType.TEXT : String := "TEXT"

/-- Modelled from the spec: see `PropertyDataType.BOOLEAN`. -/
def PropertyDataType.BLOB : String := "BLOB"

/-- Modelled from the spec: see `PropertyDataType.BOOLEAN`. -/
def PropertyDataType.DATE : String := "DATE"

/-- Modelled from the spec: see `PropertyDataType.BOOLEAN`. -/
def PropertyDataType.UUID : String := "UUID"

/-- Modelled from the spec: the `PropertyCardinality` enum
(`hugegraph_llm.enums.property_cardinality`, not among the sources); the spec
gives the cardinality enum as {SINGLE, LIST, SET}. -/
def PropertyCardinality.SINGLE : String := "SINGLE"

/-- Modelled from the spec: see `PropertyCardinality.SINGLE`. -/
def PropertyCardinality.LIST : String := "LIST"

/-- Modelled from the spec: see `PropertyCardinality.SINGLE`. -/
def PropertyCardinality.SET : String := "SET"

/-- Modelled from the spec: `default_value_map` of
`hugegraph_llm.enums.property_data_type` is not among the sources.  The spec
describes it as "the zero value for its declared scalar data type": `False`
for boolean, `0` for the integral types, `0.0` for the floating types and
`""` for the string-backed types. -/
def default_value_map (data_type : String) : PyVal :=
  if data_type == PropertyDataType.BOOLEAN then .pyBool false
  else if data_type == PropertyDataType.BYTE || data_type == PropertyDataType.INT
      || data_type == PropertyDataType.LONG then .pyInt 0
  else if data_type == PropertyDataType.FLOAT || data_type == PropertyDataType.DOUBLE then
    .pyFloat 0
  else .pyStr ""

/-- A Python `dict[str, value]`, as an association list in insertion order
(Python 3.7+ dicts preserve insertion order). -/
abbrev PropDict := List (String × PyVal)

/-- `d.get(k)`: first (unique, for a genuine dict) binding of `k`. -/
def dGet (d : PropDict) (k : String) : Option PyVal :=
  (d.find? (fun p => p.1 == k)).map (fun p => p.2)

/-- `k in d`. -/
def dHasKey (d : PropDict) (k : String) : Bool :=
  d.any (fun p => p.1 == k)

/-- `d[k] = v`: replace in place when the key is present (keeping its
position), otherwise append the new binding at the end — Python dict
assignment semantics. -/
def dSet (d : PropDict) (k : String) (v : PyVal) : PropDict :=
  if dHasKey d k then d.map (fun p => if p.1 == k then (k, v) else p)
  else d ++ [(k, v)]

/-- One entry of `schema["propertykeys"]`. -/
structure PropertyKey where
  name : String
  data_type : String
  cardinality : String
  deriving DecidableEq

/-- One entry of `schema["vertexlabels"]`. -/
structure VertexLabel where
  name : String
  properties : List String
  primary_keys : List String
  nullable_keys : List String
  deriving DecidableEq

/-- One entry of `schema["edgelabels"]`. -/
structure EdgeLabel where
  name : String
  source_label : String
  target_label : String
  properties : List String
  deriving DecidableEq

/-- The schema document handed to `CommitToKg.run`. -/
structure Schema where
  propertykeys : List PropertyKey
  vertexlabels : List VertexLabel
  edgelabels : List EdgeLabel
  deriving DecidableEq

/-- A Python dict comprehension `{keyOf(x): x for x in xs}` viewed as a lookup
function: a later entry with the same key overwrites an earlier one. -/
def dictOfList {α : Type} (keyOf : α → String) (xs : List α) (k : String) : Option α :=
  xs.foldl (fun acc x => if keyOf x == k then some x else acc) none

/-- An input vertex record `{"label": ..., "properties": {...}}`; `id` is
absent (`none`) until the store assigns one during commit. -/
structure Vertex where
  label : String
  properties : PropDict
  id : Option PyVal

/-- An input edge record `{"outV": ..., "inV": ..., "label": ..., "properties": {...}}`. -/
structure Edge where
  outV : PyVal
  inV : PyVal
  label : String
  properties : PropDict

namespace CommitToKg

/-- The SINGLE-cardinality branch of `CommitToKg._check_property_data_type`
(lines 249-263 of `commit_to_hugegraph.py`): dispatch on the declared data
type, raising `ValueError` (modelled as `Except.error`) on an unknown type. -/
def checkSingle (data_type : String) (value : PyVal) : Except String Bool :=
  if data_type == PropertyDataType.BOOLEAN then .ok (isinstance_bool value)
  else if data_type == PropertyDataType.BYTE || data_type == PropertyDataType.INT
      || data_type == PropertyDataType.LONG then .ok (isinstance_int value)
  else if data_type == PropertyDataType.FLOAT || data_type == PropertyDataType.DOUBLE then
    .ok (isinstance_float value)
  else if data_type == PropertyDataType.TEXT || data_type == PropertyDataType.BLOB then
    .ok (isinstance_str value)
  else if data_type == PropertyDataType.DATE then .ok (isinstance_str value)
  else if data_type == PropertyDataType.UUID then .ok (isinstance_str value)
  else .error ("Unknown data type: " ++ data_type)

/-- The element loop of the LIST/SET branch of `_check_property_data_type`:
each element is checked by a recursive call with SINGLE cardinality (which is
exactly `checkSingle`); the loop stops at the first `False` element and
propagates a raised `ValueError`. -/
def checkItems (data_type : String) : List PyVal → Except String Bool
  | [] => .ok true
  | item :: rest =>
    match checkSingle data_type item with
    | .error e => .error e
    | .ok false => .ok false
    | .ok true => checkItems data_type rest

/-- `CommitToKg._check_property_data_type` (lines 241-263): for LIST/SET
cardinality the value must be a `list` whose elements each pass the
SINGLE-cardinality check; otherwise the SINGLE-cardinality dispatch runs. -/
def _check_property_data_type (data_type cardinality : String) (value : PyVal) :
    Except String Bool :=
  if cardinality == PropertyCardinality.LIST || cardinality == PropertyCardinality.SET then
    match value with
    | .pyList items => checkItems data_type items
    | _ => .ok false
  else checkSingle data_type value

/-- One call issued to the external graph-store client: the fluent
schema-builder chains of `init_schema_if_need` / `schema_free_mode` /
`_create_property` (each ending in `.create()` / `.ifNotExist().create()`),
and the data calls `graph().addVertex` / `graph().addEdge`. -/
inductive Call where
  | createPropertyKey : String → String → String → Call
  | createVertexLabel : String → List String → List String → List String → Call
  | createVertexLabelCustomId : String → List String → Call
  | createEdgeLabel : String → String → String → List String → List String → Call
  | createIndexLabel : String → String → String → String → Call
  | addVertex : String → PropDict → Option PyVal → Call
  | addEdge : String → PyVal → PyVal → PropDict → Call

/-- Response of the external graph store to an `addVertex`/`addEdge` call:
either the created entity (its id), or one of the two client exceptions
`NotFoundError` and `CreateError`. -/
inductive StoreResp where
  | ok : PyVal → StoreResp
  | notFound : String → StoreResp
  | createError : String → StoreResp

/-- The external graph-store client, as a response oracle. -/
abbrev Store := Call → StoreResp

/-- Loop "2. Handle primary-keys mode vertex" of `load_into_graph`
(lines 79-91): a primary key whose value is missing or falsy is fatal when
the label has exactly one primary key (`has_problem`, modelled by the
returned flag), and is defaulted otherwise.  `property_label_map[pk]` is an
unguarded subscript: a missing property key raises `KeyError`. -/
def handlePrimaryKeys (plm : String → Option PropertyKey) (nPk : Nat) :
    List String → PropDict → Except String (PropDict × Bool)
  | [], props => .ok (props, false)
  | pk :: rest, props =>
    if pyTruthy ((dGet props pk).getD .pyNone) then
      handlePrimaryKeys plm nPk rest props
    else if nPk == 1 then
      .ok (props, true)
    else
      match plm pk with
      | none => .error ("KeyError: " ++ pk)
      | some pkey =>
        let dv := if pkey.cardinality == PropertyCardinality.SINGLE then
          default_value_map pkey.data_type else PyVal.pyList []
        handlePrimaryKeys plm nPk rest (dSet props pk dv)

/-- Loop "3. Ensure all non-nullable props are set" of `load_into_graph`
(lines 96-107): a non-nullable key absent from the dict is injected with the
type-appropriate default.  `property_label_map[key]` is again unguarded. -/
def fillNonNullable (plm : String → Option PropertyKey) :
    List String → PropDict → Except String PropDict
  | [], props => .ok props
  | key :: rest, props =>
    if dHasKey props key then fillNonNullable plm rest props
    else
      match plm key with
      | none => .error ("KeyError: " ++ key)
      | some pkey =>
        let dv := if pkey.cardinality == PropertyCardinality.SINGLE then
          default_value_map pkey.data_type else PyVal.pyList []
        fillNonNullable plm rest (dSet props key dv)

/-- Loop "4. Check all data type value is right" of `load_into_graph`
(lines 110-116): iterate the (possibly repaired) property dict in order;
`property_label_map[key]` is an unguarded subscript (`KeyError` on an unknown
property name aborts the whole call), a failed check sets `has_problem`
(returned as `true`) and breaks, and a `ValueError` raised by
`_check_property_data_type` propagates. -/
def checkAllProps (plm : String → Option PropertyKey) : PropDict → Except String Bool
  | [] => .ok false
  | (key, value) :: rest =>
    match plm key with
    | none => .error ("KeyError: " ++ key)
    | some pkey =>
      match _check_property_data_type pkey.data_type pkey.cardinality value with
      | .error e => .error e
      | .ok false => .ok true
      | .ok true => checkAllProps plm rest

/-- The non-nullable keys of a vertex label: `[key for key in
vertex_label["properties"] if key not in nullable_keys]` (line 75). -/
def nonNullKeys (vl : VertexLabel) : List String :=
  vl.properties.filter (fun key => !(vl.nullable_keys.contains key))

/-- The body of the `for vertex in vertices` loop of `load_into_graph`
(lines 64-126) for one vertex: skip silently (no store call) when the label
is missing from the schema, when the single primary key is missing/falsy, or
when a property value fails the type check; otherwise issue `addVertex` and
attach the returned id, catching `NotFoundError` and `CreateError`.
`KeyError`/`ValueError` propagate as `Except.error`. -/
def processVertex (store : Store) (vlm : String → Option VertexLabel)
    (plm : String → Option PropertyKey) (vertex : Vertex) :
    Except String (Vertex × List Call) :=
  match vlm vertex.label with
  | none => .ok (vertex, [])
  | some vertex_label =>
    match handlePrimaryKeys plm vertex_label.primary_keys.length
        vertex_label.primary_keys vertex.properties with
    | .error e => .error e
    | .ok (props, true) => .ok ({ vertex with properties := props }, [])
    | .ok (props, false) =>
      match fillNonNullable plm (nonNullKeys vertex_label) props with
      | .error e => .error e
      | .ok props =>
        match checkAllProps plm props with
        | .error e => .error e
        | .ok true => .ok ({ vertex with properties := props }, [])
        | .ok false =>
          let call := Call.addVertex vertex.label props none
          match store call with
          | .ok vid => .ok ({ vertex with properties := props, id := some vid }, [call])
          | .notFound _ => .ok ({ vertex with properties := props }, [call])
          | .createError _ => .ok ({ vertex with properties := props }, [call])

/-- The `for vertex in vertices` loop: per-vertex processing in order.  The
trace collects every store call issued before a raised exception (if any);
an exception (`KeyError`/`ValueError`) aborts the remaining iterations. -/
def processVertices (store : Store) (vlm : String → Option VertexLabel)
    (plm : String → Option PropertyKey) : List Vertex → List Call × Except String (List Vertex)
  | [] => ([], .ok [])
  | vertex :: rest =>
    match processVertex store vlm plm vertex with
    | .error e => ([], .error e)
    | .ok (vertex, calls) =>
      let (restCalls, restResult) := processVertices store vlm plm rest
      (calls ++ restCalls, restResult.map (fun vs => vertex :: vs))

/-- The body of the `for edge in edges` loop (lines 128-143): skip when the
edge label is absent from the schema; otherwise issue `addEdge`, catching
both `NotFoundError` and `CreateError`. -/
def processEdge (store : Store) (elm : String → Option EdgeLabel) (edge : Edge) : List Call :=
  match elm edge.label with
  | none => []
  | some _ =>
    let call := Call.addEdge edge.label edge.outV edge.inV edge.properties
    match store call with
    | .ok _ => [call]
    | .notFound _ => [call]
    | .createError _ => [call]

/-- The `for edge in edges` loop. -/
def processEdges (store : Store) (elm : String → Option EdgeLabel) : List Edge → List Call
  | [] => []
  | edge :: rest => processEdge store elm edge ++ processEdges store elm rest

/-- `vertex_label_map` (line 60). -/
def vertexLabelMap (schema : Schema) : String → Option VertexLabel :=
  dictOfList (fun vl => vl.name) schema.vertexlabels

/-- `edge_label_map` (line 61). -/
def edgeLabelMap (schema : Schema) : String → Option EdgeLabel :=
  dictOfList (fun el => el.name) schema.edgelabels

/-- `property_label_map` (line 62). -/
def propertyLabelMap (schema : Schema) : String → Option PropertyKey :=
  dictOfList (fun pkey => pkey.name) schema.propertykeys

/-- `CommitToKg.load_into_graph` (lines 58-143): returns the trace of store
calls together with the (possibly mutated) vertex list, or the uncaught
exception.  Store calls made before a raised exception stay in the trace. -/
def load_into_graph (store : Store) (vertices : List Vertex) (edges : List Edge)
    (schema : Schema) : List Call × Except String (List Vertex) :=
  let (vertexCalls, vertexResult) :=
    processVertices store (vertexLabelMap schema) (propertyLabelMap schema) vertices
  match vertexResult with
  | .error e => (vertexCalls, .error e)
  | .ok vertices =>
    (vertexCalls ++ processEdges store (edgeLabelMap schema) edges, .ok vertices)

/-- The data-type branch of `CommitToKg._create_property` (lines 197-229):
the store-native type the property key is declared with (`none` when the
`else` branch logs and returns without creating).  BOOLEAN is logged as
unsupported and no `asX` call is made, but creation still proceeds —
modelled by the native type "UNSET". -/
def nativeTypeFor (data_type : String) : Option String :=
  if data_type == PropertyDataType.BOOLEAN then some "UNSET"
  else if data_type == PropertyDataType.BYTE then some "INT"
  else if data_type == PropertyDataType.INT then some "INT"
  else if data_type == PropertyDataType.LONG then some "LONG"
  else if data_type == PropertyDataType.FLOAT then some "DOUBLE"
  else if data_type == PropertyDataType.DOUBLE then some "DOUBLE"
  else if data_type == PropertyDataType.TEXT then some "TEXT"
  else if data_type == PropertyDataType.BLOB then some "TEXT"
  else if data_type == PropertyDataType.DATE then some "DATE"
  else if data_type == PropertyDataType.UUID then some "TEXT"
  else none

/-- `CommitToKg._create_property` (lines 191-239): zero or one
`createPropertyKey` call — none when the data type or the cardinality is
unknown (logged, early return before `.create()`). -/
def _create_property (prop : PropertyKey) : List Call :=
  match nativeTypeFor prop.data_type with
  | none => []
  | some nativeType =>
    if prop.cardinality == PropertyCardinality.SINGLE
        || prop.cardinality == PropertyCardinality.LIST
        || prop.cardinality == PropertyCardinality.SET then
      [Call.createPropertyKey prop.name nativeType prop.cardinality]
    else []

/-- `CommitToKg.init_schema_if_need` (lines 145-173): property keys, vertex
labels (with nullable keys and primary keys), then edge labels (all of whose
properties are declared nullable). -/
def init_schema_if_need (schema : Schema) : List Call :=
  (schema.propertykeys.map _create_property).flatten
    ++ schema.vertexlabels.map (fun vl =>
        Call.createVertexLabel vl.name vl.properties vl.nullable_keys vl.primary_keys)
    ++ schema.edgelabels.map (fun el =>
        Call.createEdgeLabel el.name el.source_label el.target_label el.properties el.properties)

/-- Python `str.strip()`: drop leading and trailing whitespace. -/
def pyStrip (s : String) : String :=
  String.mk (((s.data.dropWhile Char.isWhitespace).reverse.dropWhile Char.isWhitespace).reverse)

/-- The five generic schema-creation calls of `schema_free_mode`
(lines 176-183): property "name", vertex label "vertex" with a customize
string id, edge label "edge" from "vertex" to "vertex", and two secondary
indexes on "name". -/
def genericSchemaCalls : List Call :=
  [ Call.createPropertyKey "name" "TEXT" PropertyCardinality.SINGLE
  , Call.createVertexLabelCustomId "vertex" ["name"]
  , Call.createEdgeLabel "edge" "vertex" "vertex" ["name"] []
  , Call.createIndexLabel "vertexByName" "V" "vertex" "name"
  , Call.createIndexLabel "edgeByName" "E" "edge" "name" ]

/-- The `for item in data` loop of `schema_free_mode` (lines 185-189): the
subject and object (stripped) become vertices with the string itself as id,
the predicate becomes an edge.  None of the three store calls is wrapped in
try/except, so a `NotFoundError`/`CreateError` response propagates and
aborts the loop. -/
def processTriples (store : Store) : List (String × String × String) →
    List Call × Except String Unit
  | [] => ([], .ok ())
  | (s, p, o) :: rest =>
    let sv := pyStrip s
    let pv := pyStrip p
    let ov := pyStrip o
    let c1 := Call.addVertex "vertex" [("name", .pyStr sv)] (some (.pyStr sv))
    match store c1 with
    | .notFound e => ([c1], .error ("NotFoundError: " ++ e))
    | .createError e => ([c1], .error ("CreateError: " ++ e))
    | .ok sId =>
      let c2 := Call.addVertex "vertex" [("name", .pyStr ov)] (some (.pyStr ov))
      match store c2 with
      | .notFound e => ([c1, c2], .error ("NotFoundError: " ++ e))
      | .createError e => ([c1, c2], .error ("CreateError: " ++ e))
      | .ok tId =>
        let c3 := Call.addEdge "edge" sId tId [("name", .pyStr pv)]
        match store c3 with
        | .notFound e => ([c1, c2, c3], .error ("NotFoundError: " ++ e))
        | .createError e => ([c1, c2, c3], .error ("CreateError: " ++ e))
        | .ok _ =>
          let (restCalls, restResult) := processTriples store rest
          ([c1, c2, c3] ++ restCalls, restResult)

/-- `CommitToKg.schema_free_mode` (lines 175-189). -/
def schema_free_mode (store : Store) (triples : List (String × String × String)) :
    List Call × Except String Unit :=
  let (calls, result) := processTriples store triples
  (genericSchemaCalls ++ calls, result)

/-- The input mapping consumed by `CommitToKg.run`: `data.get("schema")`,
`data.get("vertices", [])`, `data.get("edges", [])`, `data.get("triples", [])`. -/
structure RunData where
  schema : Option Schema
  vertices : List Vertex
  edges : List Edge
  triples : List (String × String × String)

/-- `CommitToKg.run` (lines 40-56): raise `ValueError` when both vertices and
edges are empty; otherwise schema-free mode on the triples when no schema is
given, else schema materialization followed by `load_into_graph`; on success
the (vertex-mutated) data mapping is returned. -/
def run (store : Store) (data : RunData) : List Call × Except String RunData :=
  if data.vertices.isEmpty && data.edges.isEmpty then
    ([], .error "Both vertices and edges input are empty.")
  else
    match data.schema with
    | none =>
      let (calls, result) := schema_free_mode store data.triples
      (calls, result.map (fun _ => data))
    | some schema =>
      let initCalls := init_schema_if_need schema
      let (loadCalls, loadResult) := load_into_graph store data.vertices data.edges schema
      (initCalls ++ loadCalls, loadResult.map (fun vs => { data with vertices := vs }))

end CommitToKg

namespace MergeDedupRerank

/-- `MergeDedupRerank._bleu_rerank` (lines 62-66).  Two external behaviours
are parameters of the embedding: `score` stands for `get_score`
(jieba-tokenised BLEU against the query, an external-library float
computation, modelled as a rational), and `dedupOrder` stands for
`list(set(results))` — CPython gives the distinct elements back in an
unspecified, hash-dependent order, so the embedding takes that order as an
input.  `list.sort(key=lambda x: x[1], reverse=True)` is Python's stable
descending sort, embedded as `List.insertionSort` with the relation
"score at least as large" (any two stable sorts of the same comparator
agree). -/
def _bleu_rerank (score : String → ℚ) (dedupOrder : List String) : List String :=
  let result_score_list := dedupOrder.map (fun res => (res, score res))
  (result_score_list.insertionSort (fun x y => y.2 ≤ x.2)).map (fun x => x.1)

/-- The pipeline context consumed and produced by `MergeDedupRerank.run`. -/
structure RerankContext where
  query : String
  vector_result : List String
  graph_result : List String

/-- `MergeDedupRerank.run` (lines 48-60): rerank each of the two result
lists against the query and truncate each to `topk`.  `vOrder` / `gOrder`
are the `list(set(...))` orders for the two lists (see `_bleu_rerank`), and
`score query content` stands for `get_score(query, content)`. -/
def run (score : String → String → ℚ) (topk : Nat) (vOrder gOrder : List String)
    (context : RerankContext) : RerankContext :=
  { context with
    vector_result := (_bleu_rerank (score context.query) vOrder).take topk
    graph_result := (_bleu_rerank (score context.query) gOrder).take topk }

/-- `dedupOrder` is a possible value of `list(set(input))`: the distinct
elements of `input`, each exactly once, in some order. -/
def IsSetList (input dedupOrder : List String) : Prop :=
  dedupOrder.Nodup ∧ (∀ x ∈ dedupOrder, x ∈ input) ∧ (∀ x ∈ input, x ∈ dedupOrder)

end MergeDedupRerank

/-- The ten data-type enum values `_check_property_data_type` and
`_create_property` dispatch on. -/
def recognizedDataTypes : List String :=
  [PropertyDataType.BOOLEAN, PropertyDataType.BYTE, PropertyDataType.INT,
   PropertyDataType.LONG, PropertyDataType.FLOAT, PropertyDataType.DOUBLE,
   PropertyDataType.TEXT, PropertyDataType.BLOB, PropertyDataType.DATE,
   PropertyDataType.UUID]

/-- A property key whose declared (data type, cardinality) the commit path
can handle end to end: a SINGLE-cardinality key needs a recognized data type
(`_check_property_data_type` raises on the injected default otherwise), and
LIST/SET keys are filled with `[]`, which passes the check vacuously. -/
def WellFormedKey (pkey : PropertyKey) : Prop :=
  (pkey.cardinality = PropertyCardinality.SINGLE ∧ pkey.data_type ∈ recognizedDataTypes)
    ∨ pkey.cardinality = PropertyCardinality.LIST
    ∨ pkey.cardinality = PropertyCardinality.SET

instance (pkey : PropertyKey) : Decidable (WellFormedKey pkey) := by
  unfold WellFormedKey
  infer_instance

/-- The default value injected for a missing primary key or a missing
non-nullable property: `default_value_map(data_type)` at SINGLE cardinality
and `[]` otherwise (lines 87-90 and 100-106 of the source). -/
def defaultFor (pkey : PropertyKey) : PyVal :=
  if pkey.cardinality == PropertyCardinality.SINGLE then
    default_value_map pkey.data_type
  else .pyList []

/-- `k` resolves in the property map to a well-formed key. -/
def KeyWF (plm : String → Option PropertyKey) (k : String) : Prop :=
  match plm k with
  | none => False
  | some pkey => WellFormedKey pkey

instance (plm : String → Option PropertyKey) (k : String) : Decidable (KeyWF plm k) :=
  match h : plm k with
  | none => .isFalse (by simp [KeyWF, h])
  | some pkey => decidable_of_iff (WellFormedKey pkey) (by simp [KeyWF, h])

deriving instance DecidableEq for Except

/-- The binding `p` resolves in the property map and its value passes the
declared type check. -/
def PropOk (plm : String → Option PropertyKey) (p : String × PyVal) : Prop :=
  match plm p.1 with
  | none => False
  | some pkey =>
    CommitToKg._check_property_data_type pkey.data_type pkey.cardinality p.2 = .ok true

instance (plm : String → Option PropertyKey) (p : String × PyVal) : Decidable (PropOk plm p) :=
  match h : plm p.1 with
  | none => .isFalse (by simp [PropOk, h])
  | some pkey =>
    decidable_of_iff
      (CommitToKg._check_property_data_type pkey.data_type pkey.cardinality p.2 = .ok true)
      (by simp [PropOk, h])

/-- The binding `p` resolves in the property map and its type check returns
without raising (either verdict). -/
def PropNoRaise (plm : String → Option PropertyKey) (p : String × PyVal) : Prop :=
  match plm p.1 with
  | none => False
  | some pkey =>
    ∃ b, CommitToKg._check_property_data_type pkey.data_type pkey.cardinality p.2 = .ok b

instance (plm : String → Option PropertyKey) (p : String × PyVal) :
    Decidable (PropNoRaise plm p) :=
  match h : plm p.1 with
  | none => .isFalse (by simp [PropNoRaise, h])
  | some pkey =>
    decidable_of_iff
      (∃ b, CommitToKg._check_property_data_type pkey.data_type pkey.cardinality p.2 = .ok b)
      (by simp [PropNoRaise, h])

/-- The binding `p` resolves in the property map and its value fails the
declared type check (verdict `False`, not a raise). -/
def PropBad (plm : String → Option PropertyKey) (p : String × PyVal) : Prop :=
  match plm p.1 with
  | none => False
  | some pkey =>
    CommitToKg._check_property_data_type pkey.data_type pkey.cardinality p.2 = .ok false

instance (plm : String → Option PropertyKey) (p : String × PyVal) : Decidable (PropBad plm p) :=
  match h : plm p.1 with
  | none => .isFalse (by simp [PropBad, h])
  | some pkey =>
    decidable_of_iff
      (CommitToKg._check_property_data_type pkey.data_type pkey.cardinality p.2 = .ok false)
      (by simp [PropBad, h])

/-- An "empty" Python value: empty string, empty list, or `None`. -/
def PyEmptyVal (v : PyVal) : Prop :=
  v = .pyStr "" ∨ v = .pyList [] ∨ v = .pyNone

/-- The key `k` is missing from the dict, or bound to an empty value. -/
def MissingOrEmpty (props : PropDict) (k : String) : Prop :=
  dGet props k = none ∨ ∃ v, dGet props k = some v ∧ PyEmptyVal v

/-- Whether an `Except` result is a success. -/
def exceptIsOk {ε α : Type} : Except ε α → Bool
  | .ok _ => true
  | .error _ => false

/-- The spec's "boolean" value category. -/
def IsBooleanVal (v : PyVal) : Prop := ∃ b, v = .pyBool b

/-- The spec's "integer" value category.  In Python a `bool` is also an
integer (`bool` subclasses `int`), so boolean values belong to it. -/
def IsIntegerVal (v : PyVal) : Prop := (∃ n, v = .pyInt n) ∨ ∃ b, v = .pyBool b

/-- The spec's "floating-point" value category. -/
def IsFloatVal (v : PyVal) : Prop := ∃ q, v = .pyFloat q

/-- The spec's "string" value category. -/
def IsStringVal (v : PyVal) : Prop := ∃ s, v = .pyStr s

/-- Reference SINGLE-cardinality type check, following the spec's words:
"boolean↔boolean, {byte,int,long}↔integer, {float,double}↔floating-point,
{text,blob,date,uuid}↔string". -/
def specSingleOk (data_type : String) (v : PyVal) : Prop :=
  (data_type = PropertyDataType.BOOLEAN ∧ IsBooleanVal v)
    ∨ (data_type ∈ [PropertyDataType.BYTE, PropertyDataType.INT, PropertyDataType.LONG]
        ∧ IsIntegerVal v)
    ∨ (data_type ∈ [PropertyDataType.FLOAT, PropertyDataType.DOUBLE] ∧ IsFloatVal v)
    ∨ (data_type ∈ [PropertyDataType.TEXT, PropertyDataType.BLOB, PropertyDataType.DATE,
        PropertyDataType.UUID] ∧ IsStringVal v)

/-- Reference recursive type check, following the spec's words: "if
cardinality is LIST or SET, value must be a sequence and every element must
independently satisfy the SINGLE-cardinality check for that data type;
else" the SINGLE-cardinality rule applies. -/
def specTypeOk (data_type cardinality : String) (v : PyVal) : Prop :=
  if cardinality = PropertyCardinality.LIST ∨ cardinality = PropertyCardinality.SET then
    ∃ items, v = .pyList items ∧ ∀ x ∈ items, specSingleOk data_type x
  else specSingleOk data_type v

/-!
## Theorems

Dictionary lemmas, then the per-claim developments.
-/

theorem find?_mapSet_self (d : PropDict) (k : String) (v : PyVal) :
    List.find? (fun q => q.1 == k) (d.map (fun q => if q.1 == k then (k, v) else q))
      = (List.find? (fun q => q.1 == k) d).map (fun _ => (k, v)) := by
  induction d with
  | nil => rfl
  | cons p rest ih =>
    by_cases hpk : p.1 = k
    · have hb : (p.1 == k) = true := beq_iff_eq.2 hpk
      simp [List.find?, hb, -List.find?_map, -beq_iff_eq]
    · have hb : (p.1 == k) = false := by simpa using hpk
      simp [List.find?, hb, ih, -List.find?_map, -beq_iff_eq]

theorem find?_mapSet_ne (d : PropDict) {k k' : String} (v : PyVal) (h : k' ≠ k) :
    List.find? (fun q => q.1 == k') (d.map (fun q => if q.1 == k then (k, v) else q))
      = List.find? (fun q => q.1 == k') d := by
  induction d with
  | nil => rfl
  | cons p rest ih =>
    by_cases hpk : p.1 = k
    · have hb : (p.1 == k) = true := beq_iff_eq.2 hpk
      have hk1 : ((k : String) == k') = false := by simpa using fun he => absurd he.symm h
      have hk2 : (p.1 == k') = false := by simpa [hpk] using fun he => absurd he.symm h
      simp [List.find?, hb, hk1, hk2, ih, -List.find?_map, -beq_iff_eq]
    · have hb : (p.1 == k) = false := by simpa using hpk
      by_cases hp' : p.1 = k'
      · have hk' : (p.1 == k') = true := beq_iff_eq.2 hp'
        simp [List.find?, hb, hk', -List.find?_map, -beq_iff_eq]
      · have hk' : (p.1 == k') = false := by simpa using hp'
        simp [List.find?, hb, hk', ih, -List.find?_map, -beq_iff_eq]

theorem any_mapSet_ne (d : PropDict) {k k' : String} (v : PyVal) (h : k' ≠ k) :
    (d.map (fun q => if q.1 == k then (k, v) else q)).any (fun q => q.1 == k')
      = d.any (fun q => q.1 == k') := by
  induction d with
  | nil => rfl
  | cons p rest ih =>
    by_cases hpk : p.1 = k
    · have hb : (p.1 == k) = true := beq_iff_eq.2 hpk
      have hk1 : ((k : String) == k') = false := by simpa using fun he => absurd he.symm h
      have hk2 : (p.1 == k') = false := by simpa [hpk] using fun he => absurd he.symm h
      simp [hb, hk1, hk2, ih, -List.any_map, -beq_iff_eq]
    · have hb : (p.1 == k) = false := by simpa using hpk
      simp [hb, ih, -List.any_map, -beq_iff_eq]

theorem dGet_of_dHasKey_eq_false {d : PropDict} {k : String} (h : dHasKey d k = false) :
    dGet d k = none := by
  unfold dGet
  rw [List.find?_eq_none.2]
  · rfl
  · intro q hq
    have := (List.any_eq_false.1 h) q hq
    simpa using this

theorem dHasKey_of_dGet_eq_some {d : PropDict} {k : String} {v : PyVal}
    (h : dGet d k = some v) : dHasKey d k = true := by
  unfold dGet at h
  cases hf : List.find? (fun q => q.1 == k) d with
  | none => rw [hf] at h; simp at h
  | some q =>
    have h1 : q ∈ d := List.mem_of_find?_eq_some hf
    have h2 := List.find?_some hf
    exact List.any_eq_true.2 ⟨q, h1, h2⟩

theorem dGet_dSet_self (d : PropDict) (k : String) (v : PyVal) :
    dGet (dSet d k v) k = some v := by
  unfold dSet
  by_cases h : dHasKey d k = true
  · rw [if_pos h]
    unfold dGet
    rw [find?_mapSet_self]
    obtain ⟨q, hq, hqp⟩ := List.any_eq_true.1 h
    cases hf : List.find? (fun q => q.1 == k) d with
    | none => exact absurd (List.find?_eq_none.1 hf q hq) (by simp [hqp])
    | some w => rfl
  · have hb : dHasKey d k = false := by simpa using h
    rw [if_neg h]
    unfold dGet
    have hn : List.find? (fun q => q.1 == k) d = none := by
      rw [List.find?_eq_none.2]
      intro q hq
      have := (List.any_eq_false.1 hb) q hq
      simpa using this
    simp [List.find?_append, hn, List.find?]

theorem dGet_dSet_ne (d : PropDict) {k k' : String} (v : PyVal) (h : k' ≠ k) :
    dGet (dSet d k v) k' = dGet d k' := by
  unfold dSet
  by_cases hk : dHasKey d k = true
  · rw [if_pos hk]
    unfold dGet
    rw [find?_mapSet_ne _ _ h]
  · rw [if_neg hk]
    unfold dGet
    have hone : List.find? (fun q => q.1 == k') [(k, v)] = none := by
      rw [List.find?_eq_none.2]
      intro q hq
      simp at hq
      simpa [hq] using fun he => absurd he.symm h
    rw [List.find?_append, hone]
    simp

theorem dHasKey_dSet_self (d : PropDict) (k : String) (v : PyVal) :
    dHasKey (dSet d k v) k = true :=
  dHasKey_of_dGet_eq_some (dGet_dSet_self d k v)

theorem dHasKey_dSet_ne (d : PropDict) {k k' : String} (v : PyVal) (h : k' ≠ k) :
    dHasKey (dSet d k v) k' = dHasKey d k' := by
  unfold dSet
  by_cases hk : dHasKey d k = true
  · rw [if_pos hk]
    exact any_mapSet_ne d v h
  · rw [if_neg hk]
    have hone : List.any [(k, v)] (fun q => q.1 == k') = false := by
      simpa using fun he => absurd he.symm h
    unfold dHasKey
    rw [List.any_append, hone, Bool.or_false]

theorem mem_dSet {d : PropDict} {k : String} {v : PyVal} {p : String × PyVal}
    (h : p ∈ dSet d k v) : p = (k, v) ∨ p ∈ d := by
  unfold dSet at h
  by_cases hk : dHasKey d k = true
  · rw [if_pos hk, List.mem_map] at h
    obtain ⟨q, hq, hqe⟩ := h
    by_cases hqk : q.1 = k
    · have hb : (q.1 == k) = true := beq_iff_eq.2 hqk
      rw [← hqe]
      simp [hb]
    · have hb : (q.1 == k) = false := by simpa using hqk
      rw [← hqe]
      simp only [hb, Bool.false_eq_true, if_false]
      exact Or.inr hq
  · rw [if_neg hk, List.mem_append] at h
    rcases h with h | h
    · exact Or.inr h
    · simp at h
      exact Or.inl (by simp [h])


namespace CommitToKg

theorem check_single_cardinality (data_type : String) (value : PyVal) :
    _check_property_data_type data_type PropertyCardinality.SINGLE value
      = checkSingle data_type value := rfl

end CommitToKg

namespace CommitToKg

theorem checkSingle_default {dt : String} (h : dt ∈ recognizedDataTypes) :
    checkSingle dt (default_value_map dt) = .ok true := by
  simp [recognizedDataTypes] at h
  rcases h with h|h|h|h|h|h|h|h|h|h <;> subst h <;> rfl

theorem check_defaultFor {pkey : PropertyKey} (h : WellFormedKey pkey) :
    _check_property_data_type pkey.data_type pkey.cardinality (defaultFor pkey) = .ok true := by
  obtain ⟨name, dt, card⟩ := pkey
  rcases h with ⟨hc, hr⟩ | hc | hc
  · dsimp only at hc hr ⊢
    subst hc
    show checkSingle dt (default_value_map dt) = .ok true
    exact checkSingle_default hr
  · dsimp only at hc ⊢
    subst hc
    rfl
  · dsimp only at hc ⊢
    subst hc
    rfl

theorem handlePrimaryKeys_all_truthy (plm : String → Option PropertyKey) (n : Nat)
    (pks : List String) (props : PropDict)
    (h : ∀ pk ∈ pks, pyTruthy ((dGet props pk).getD .pyNone) = true) :
    handlePrimaryKeys plm n pks props = .ok (props, false) := by
  induction pks with
  | nil => rfl
  | cons pk rest ih =>
    rw [handlePrimaryKeys, if_pos (h pk (List.mem_cons_self pk rest))]
    exact ih (fun k hk => h k (List.mem_cons_of_mem _ hk))

theorem handlePrimaryKeys_single_missing (plm : String → Option PropertyKey) (pk : String)
    (props : PropDict) (h : pyTruthy ((dGet props pk).getD .pyNone) = false) :
    handlePrimaryKeys plm 1 [pk] props = .ok (props, true) := by
  rw [handlePrimaryKeys, if_neg (by simp [h])]
  rfl

theorem fillNonNullable_all_present (plm : String → Option PropertyKey) (ks : List String)
    (props : PropDict) (h : ∀ k ∈ ks, dHasKey props k = true) :
    fillNonNullable plm ks props = .ok props := by
  induction ks with
  | nil => rfl
  | cons k rest ih =>
    rw [fillNonNullable, if_pos (h k (List.mem_cons_self k rest))]
    exact ih (fun k' hk' => h k' (List.mem_cons_of_mem _ hk'))

theorem checkAllProps_ok (plm : String → Option PropertyKey) (props : PropDict)
    (h : ∀ p ∈ props, PropOk plm p) : checkAllProps plm props = .ok false := by
  induction props with
  | nil => rfl
  | cons p rest ih =>
    obtain ⟨k, v⟩ := p
    have hp := h _ (List.mem_cons_self _ _)
    dsimp only [PropOk] at hp
    cases hplm : plm k with
    | none => simp [hplm] at hp
    | some pkey =>
      simp only [hplm] at hp
      simp only [checkAllProps, hplm, hp]
      exact ih (fun q hq => h q (List.mem_cons_of_mem _ hq))

theorem checkAllProps_bad (plm : String → Option PropertyKey) (props : PropDict)
    (hall : ∀ p ∈ props, PropNoRaise plm p) (hbad : ∃ p ∈ props, PropBad plm p) :
    checkAllProps plm props = .ok true := by
  induction props with
  | nil => simp at hbad
  | cons p rest ih =>
    obtain ⟨k, v⟩ := p
    have hp := hall _ (List.mem_cons_self _ _)
    dsimp only [PropNoRaise] at hp
    cases hplm : plm k with
    | none => simp [hplm] at hp
    | some pkey =>
      simp only [hplm] at hp
      obtain ⟨b, hb⟩ := hp
      cases b with
      | false => simp only [checkAllProps, hplm, hb]
      | true =>
        simp only [checkAllProps, hplm, hb]
        apply ih (fun q hq => hall q (List.mem_cons_of_mem _ hq))
        rcases hbad with ⟨q, hq, hqbad⟩
        rcases List.mem_cons.1 hq with rfl | hq'
        · dsimp only [PropBad] at hqbad
          simp only [hplm] at hqbad
          rw [hb] at hqbad
          simp at hqbad
        · exact ⟨q, hq', hqbad⟩

theorem checkAllProps_keyerror (plm : String → Option PropertyKey) (pre : PropDict)
    (k : String) (v : PyVal) (post : PropDict)
    (hpre : ∀ p ∈ pre, PropOk plm p) (hk : plm k = none) :
    checkAllProps plm (pre ++ (k, v) :: post) = .error ("KeyError: " ++ k) := by
  induction pre with
  | nil => simp only [List.nil_append, checkAllProps, hk]
  | cons p rest ih =>
    obtain ⟨k', v'⟩ := p
    have hp := hpre _ (List.mem_cons_self _ _)
    dsimp only [PropOk] at hp
    cases hplm : plm k' with
    | none => simp [hplm] at hp
    | some pkey =>
      simp only [hplm] at hp
      simp only [List.cons_append, checkAllProps, hplm, hp]
      exact ih (fun q hq => hpre q (List.mem_cons_of_mem _ hq))

theorem handlePrimaryKeys_spec (plm : String → Option PropertyKey) (n : Nat) (hn : n ≠ 1) :
    ∀ (pks : List String) (props : PropDict), pks.Nodup →
    (∀ pk ∈ pks, KeyWF plm pk) →
    ∃ props₁, handlePrimaryKeys plm n pks props = .ok (props₁, false)
      ∧ (∀ p ∈ props₁, p ∈ props
          ∨ ∃ pk ∈ pks, ∃ pkey, plm pk = some pkey ∧ p = (pk, defaultFor pkey))
      ∧ (∀ k, k ∉ pks → dGet props₁ k = dGet props k ∧ dHasKey props₁ k = dHasKey props k)
      ∧ (∀ pk ∈ pks, pyTruthy ((dGet props pk).getD .pyNone) = true →
          dGet props₁ pk = dGet props pk ∧ dHasKey props₁ pk = dHasKey props pk)
      ∧ (∀ pk ∈ pks, pyTruthy ((dGet props pk).getD .pyNone) = false →
          ∃ pkey, plm pk = some pkey ∧ dGet props₁ pk = some (defaultFor pkey)) := by
  intro pks
  induction pks with
  | nil =>
    intro props _ _
    exact ⟨props, rfl, fun p hp => Or.inl hp, fun k _ => ⟨rfl, rfl⟩,
      fun pk hpk => absurd hpk (List.not_mem_nil pk),
      fun pk hpk => absurd hpk (List.not_mem_nil pk)⟩
  | cons pk rest ih =>
    intro props hnd hwf
    have hpknr : pk ∉ rest := (List.nodup_cons.1 hnd).1
    have hndr : rest.Nodup := (List.nodup_cons.1 hnd).2
    have hwfr : ∀ k ∈ rest, KeyWF plm k := fun k hk => hwf k (List.mem_cons_of_mem _ hk)
    by_cases htr : pyTruthy ((dGet props pk).getD .pyNone) = true
    · obtain ⟨props₁, heq, hprov, hunt, htru, hfal⟩ := ih props hndr hwfr
      refine ⟨props₁, ?_, ?_, ?_, ?_, ?_⟩
      · rw [handlePrimaryKeys, if_pos htr]
        exact heq
      · intro p hp
        rcases hprov p hp with hp' | ⟨k, hk, pkey, hpk', hpd⟩
        · exact Or.inl hp'
        · exact Or.inr ⟨k, List.mem_cons_of_mem _ hk, pkey, hpk', hpd⟩
      · intro k hk
        exact hunt k (fun hkr => hk (List.mem_cons_of_mem _ hkr))
      · intro k hk htk
        rcases List.mem_cons.1 hk with rfl | hkr
        · exact hunt k hpknr
        · exact htru k hkr htk
      · intro k hk hfk
        rcases List.mem_cons.1 hk with rfl | hkr
        · rw [htr] at hfk
          simp at hfk
        · exact hfal k hkr hfk
    · have hf : pyTruthy ((dGet props pk).getD .pyNone) = false := by
        simpa using htr
      have hkwf := hwf pk (List.mem_cons_self pk rest)
      dsimp only [KeyWF] at hkwf
      cases hplm : plm pk with
      | none =>
        simp only [hplm] at hkwf
      | some pkey =>
        simp only [hplm] at hkwf
        have hstep : handlePrimaryKeys plm n (pk :: rest) props
            = handlePrimaryKeys plm n rest (dSet props pk (defaultFor pkey)) := by
          rw [handlePrimaryKeys, if_neg (by simp [hf]), if_neg (by simpa using hn)]
          simp only [hplm]
          rfl
        obtain ⟨props₁, heq, hprov, hunt, htru, hfal⟩ :=
          ih (dSet props pk (defaultFor pkey)) hndr hwfr
        refine ⟨props₁, ?_, ?_, ?_, ?_, ?_⟩
        · rw [hstep]
          exact heq
        · intro p hp
          rcases hprov p hp with hp' | ⟨k, hk, pkey', hpk', hpd⟩
          · rcases mem_dSet hp' with rfl | hp''
            · exact Or.inr ⟨pk, List.mem_cons_self pk rest, pkey, hplm, rfl⟩
            · exact Or.inl hp''
          · exact Or.inr ⟨k, List.mem_cons_of_mem _ hk, pkey', hpk', hpd⟩
        · intro k hk
          have hknp : k ≠ pk := fun he => hk (he ▸ List.mem_cons_self pk rest)
          have hknr : k ∉ rest := fun hkr => hk (List.mem_cons_of_mem _ hkr)
          obtain ⟨h1, h2⟩ := hunt k hknr
          exact ⟨h1.trans (dGet_dSet_ne props _ hknp),
            h2.trans (dHasKey_dSet_ne props _ hknp)⟩
        · intro k hk htk
          rcases List.mem_cons.1 hk with rfl | hkr
          · rw [hf] at htk
            simp at htk
          · have hknp : k ≠ pk := fun he => hpknr (he ▸ hkr)
            have hget : dGet (dSet props pk (defaultFor pkey)) k = dGet props k :=
              dGet_dSet_ne props _ hknp
            obtain ⟨h1, h2⟩ := htru k hkr (by rw [hget]; exact htk)
            exact ⟨h1.trans hget, h2.trans (dHasKey_dSet_ne props _ hknp)⟩
        · intro k hk hfk
          rcases List.mem_cons.1 hk with rfl | hkr
          · obtain ⟨h1, _⟩ := hunt k hpknr
            exact ⟨pkey, hplm, h1.trans (dGet_dSet_self props k (defaultFor pkey))⟩
          · have hknp : k ≠ pk := fun he => hpknr (he ▸ hkr)
            have hget : dGet (dSet props pk (defaultFor pkey)) k = dGet props k :=
              dGet_dSet_ne props _ hknp
            obtain ⟨pkey', hplm', h1⟩ := hfal k hkr (by rw [hget]; exact hfk)
            exact ⟨pkey', hplm', h1⟩

theorem fillNonNullable_spec (plm : String → Option PropertyKey) :
    ∀ (ks : List String) (props : PropDict), ks.Nodup →
    (∀ k ∈ ks, KeyWF plm k) →
    ∃ props₂, fillNonNullable plm ks props = .ok props₂
      ∧ (∀ p ∈ props₂, p ∈ props
          ∨ ∃ k ∈ ks, ∃ pkey, plm k = some pkey ∧ p = (k, defaultFor pkey))
      ∧ (∀ k, k ∉ ks → dGet props₂ k = dGet props k)
      ∧ (∀ k ∈ ks, dHasKey props k = true → dGet props₂ k = dGet props k)
      ∧ (∀ k ∈ ks, dHasKey props k = false →
          ∃ pkey, plm k = some pkey ∧ dGet props₂ k = some (defaultFor pkey)) := by
  intro ks
  induction ks with
  | nil =>
    intro props _ _
    exact ⟨props, rfl, fun p hp => Or.inl hp, fun k _ => rfl,
      fun k hk => absurd hk (List.not_mem_nil k),
      fun k hk => absurd hk (List.not_mem_nil k)⟩
  | cons key rest ih =>
    intro props hnd hwf
    have hknr : key ∉ rest := (List.nodup_cons.1 hnd).1
    have hndr : rest.Nodup := (List.nodup_cons.1 hnd).2
    have hwfr : ∀ k ∈ rest, KeyWF plm k := fun k hk => hwf k (List.mem_cons_of_mem _ hk)
    by_cases hhk : dHasKey props key = true
    · obtain ⟨props₂, heq, hprov, hunt, hpres, habs⟩ := ih props hndr hwfr
      refine ⟨props₂, ?_, ?_, ?_, ?_, ?_⟩
      · rw [fillNonNullable, if_pos hhk]
        exact heq
      · intro p hp
        rcases hprov p hp with hp' | ⟨k, hk, pkey, hpk', hpd⟩
        · exact Or.inl hp'
        · exact Or.inr ⟨k, List.mem_cons_of_mem _ hk, pkey, hpk', hpd⟩
      · intro k hk
        exact hunt k (fun hkr => hk (List.mem_cons_of_mem _ hkr))
      · intro k hk hpk
        rcases List.mem_cons.1 hk with rfl | hkr
        · exact hunt k hknr
        · exact hpres k hkr hpk
      · intro k hk hak
        rcases List.mem_cons.1 hk with rfl | hkr
        · rw [hhk] at hak
          simp at hak
        · exact habs k hkr hak
    · have hfk : dHasKey props key = false := by simpa using hhk
      have hkwf := hwf key (List.mem_cons_self key rest)
      dsimp only [KeyWF] at hkwf
      cases hplm : plm key with
      | none =>
        simp only [hplm] at hkwf
      | some pkey =>
        simp only [hplm] at hkwf
        have hstep : fillNonNullable plm (key :: rest) props
            = fillNonNullable plm rest (dSet props key (defaultFor pkey)) := by
          rw [fillNonNullable, if_neg (by simp [hfk])]
          simp only [hplm]
          rfl
        obtain ⟨props₂, heq, hprov, hunt, hpres, habs⟩ :=
          ih (dSet props key (defaultFor pkey)) hndr hwfr
        refine ⟨props₂, ?_, ?_, ?_, ?_, ?_⟩
        · rw [hstep]
          exact heq
        · intro p hp
          rcases hprov p hp with hp' | ⟨k, hk, pkey', hpk', hpd⟩
          · rcases mem_dSet hp' with rfl | hp''
            · exact Or.inr ⟨key, List.mem_cons_self key rest, pkey, hplm, rfl⟩
            · exact Or.inl hp''
          · exact Or.inr ⟨k, List.mem_cons_of_mem _ hk, pkey', hpk', hpd⟩
        · intro k hk
          have hknp : k ≠ key := fun he => hk (he ▸ List.mem_cons_self key rest)
          have hknr' : k ∉ rest := fun hkr => hk (List.mem_cons_of_mem _ hkr)
          exact (hunt k hknr').trans (dGet_dSet_ne props _ hknp)
        · intro k hk hpk
          rcases List.mem_cons.1 hk with rfl | hkr
          · rw [hfk] at hpk
            simp at hpk
          · have hknp : k ≠ key := fun he => hknr (he ▸ hkr)
            have hhas : dHasKey (dSet props key (defaultFor pkey)) k = dHasKey props k :=
              dHasKey_dSet_ne props _ hknp
            exact (hpres k hkr (by rw [hhas]; exact hpk)).trans (dGet_dSet_ne props _ hknp)
        · intro k hk hak
          rcases List.mem_cons.1 hk with rfl | hkr
          · exact ⟨pkey, hplm, (hunt k hknr).trans (dGet_dSet_self props k (defaultFor pkey))⟩
          · have hknp : k ≠ key := fun he => hknr (he ▸ hkr)
            have hhas : dHasKey (dSet props key (defaultFor pkey)) k = dHasKey props k :=
              dHasKey_dSet_ne props _ hknp
            obtain ⟨pkey', hplm', h1⟩ := habs k hkr (by rw [hhas]; exact hak)
            exact ⟨pkey', hplm', h1⟩

theorem pyTruthy_of_missingOrEmpty {props : PropDict} {k : String}
    (h : MissingOrEmpty props k) : pyTruthy ((dGet props k).getD .pyNone) = false := by
  rcases h with h | ⟨v, hv, hemp⟩
  · rw [h]
    rfl
  · rw [hv]
    rcases hemp with rfl | rfl | rfl <;> rfl

theorem processVertex_single_missing (store : Store) (vlm : String → Option VertexLabel)
    (plm : String → Option PropertyKey) (v : Vertex) (L : VertexLabel) (pk : String)
    (hL : vlm v.label = some L) (hpk : L.primary_keys = [pk])
    (hfalsy : pyTruthy ((dGet v.properties pk).getD .pyNone) = false) :
    processVertex store vlm plm v = .ok (v, []) := by
  rw [processVertex]
  simp only [hL, hpk, List.length_cons, List.length_nil,
    handlePrimaryKeys_single_missing plm pk v.properties hfalsy]

theorem processVertices_cons_ok (store : Store) (vlm : String → Option VertexLabel)
    (plm : String → Option PropertyKey) (v v' : Vertex) (calls : List Call)
    (rest : List Vertex) (h : processVertex store vlm plm v = .ok (v', calls)) :
    processVertices store vlm plm (v :: rest)
      = (calls ++ (processVertices store vlm plm rest).1,
         (processVertices store vlm plm rest).2.map (fun vs => v' :: vs)) := by
  rw [processVertices]
  simp only [h]

theorem processVertices_cons_error (store : Store) (vlm : String → Option VertexLabel)
    (plm : String → Option PropertyKey) (v : Vertex) (rest : List Vertex) (e : String)
    (h : processVertex store vlm plm v = .error e) :
    processVertices store vlm plm (v :: rest) = ([], .error e) := by
  rw [processVertices]
  simp only [h]

theorem processVertex_type_mismatch (store : Store) (vlm : String → Option VertexLabel)
    (plm : String → Option PropertyKey) (v : Vertex) (L : VertexLabel)
    (hL : vlm v.label = some L)
    (hpks : ∀ pk ∈ L.primary_keys, pyTruthy ((dGet v.properties pk).getD .pyNone) = true)
    (hnn : ∀ k ∈ nonNullKeys L, dHasKey v.properties k = true)
    (hall : ∀ p ∈ v.properties, PropNoRaise plm p)
    (hbad : ∃ p ∈ v.properties, PropBad plm p) :
    processVertex store vlm plm v = .ok (v, []) := by
  rw [processVertex]
  simp only [hL, handlePrimaryKeys_all_truthy plm _ _ _ hpks,
    fillNonNullable_all_present plm _ _ hnn, checkAllProps_bad plm _ hall hbad]

theorem processVertex_unknown_property (store : Store) (vlm : String → Option VertexLabel)
    (plm : String → Option PropertyKey) (v : Vertex) (L : VertexLabel)
    (pre : PropDict) (k : String) (val : PyVal) (post : PropDict)
    (hL : vlm v.label = some L)
    (hpks : ∀ pk ∈ L.primary_keys, pyTruthy ((dGet v.properties pk).getD .pyNone) = true)
    (hnn : ∀ k' ∈ nonNullKeys L, dHasKey v.properties k' = true)
    (hsplit : v.properties = pre ++ (k, val) :: post)
    (hpre : ∀ p ∈ pre, PropOk plm p)
    (hkey : plm k = none) :
    processVertex store vlm plm v = .error ("KeyError: " ++ k) := by
  rw [processVertex]
  simp only [hL, handlePrimaryKeys_all_truthy plm _ _ _ hpks,
    fillNonNullable_all_present plm _ _ hnn]
  rw [hsplit, checkAllProps_keyerror plm pre k val post hpre hkey]

theorem processVertex_multi_pk_defaults (store : Store) (vlm : String → Option VertexLabel)
    (plm : String → Option PropertyKey) (v : Vertex) (L : VertexLabel)
    (hL : vlm v.label = some L)
    (hmulti : L.primary_keys.length ≠ 1)
    (hndpk : L.primary_keys.Nodup)
    (hndnn : (nonNullKeys L).Nodup)
    (hwfpk : ∀ pk ∈ L.primary_keys, KeyWF plm pk)
    (hwfnn : ∀ k ∈ nonNullKeys L, KeyWF plm k)
    (hprops : ∀ p ∈ v.properties, PropOk plm p) :
    ∃ props₂ v',
      processVertex store vlm plm v = .ok (v', [Call.addVertex v.label props₂ none])
      ∧ v'.label = v.label
      ∧ v'.properties = props₂
      ∧ (∀ pk ∈ L.primary_keys, pyTruthy ((dGet v.properties pk).getD .pyNone) = false →
          ∃ pkey, plm pk = some pkey ∧ dGet props₂ pk = some (defaultFor pkey))
      ∧ (∀ k ∈ nonNullKeys L, dHasKey v.properties k = false →
          ∃ pkey, plm k = some pkey ∧ dGet props₂ k = some (defaultFor pkey)) := by
  obtain ⟨props₁, heq1, prov1, unt1, tru1, fal1⟩ :=
    handlePrimaryKeys_spec plm L.primary_keys.length hmulti L.primary_keys v.properties
      hndpk hwfpk
  obtain ⟨props₂, heq2, prov2, unt2, pres2, abs2⟩ :=
    fillNonNullable_spec plm (nonNullKeys L) props₁ hndnn hwfnn
  have hWFof : ∀ {k : String} {pkey : PropertyKey}, KeyWF plm k → plm k = some pkey →
      WellFormedKey pkey := by
    intro k pkey hk hpk
    dsimp only [KeyWF] at hk
    simp only [hpk] at hk
    exact hk
  have hgood : ∀ p ∈ props₂, PropOk plm p := by
    intro p hp
    rcases prov2 p hp with hp1 | ⟨k, hk, pkey, hplm, rfl⟩
    · rcases prov1 p hp1 with hp0 | ⟨pk, hpk, pkey, hplm, rfl⟩
      · exact hprops p hp0
      · dsimp only [PropOk]
        simp only [hplm]
        exact check_defaultFor (hWFof (hwfpk pk hpk) hplm)
    · dsimp only [PropOk]
      simp only [hplm]
      exact check_defaultFor (hWFof (hwfnn k hk) hplm)
  have hchk := checkAllProps_ok plm props₂ hgood
  have hpkclause : ∀ pk ∈ L.primary_keys,
      pyTruthy ((dGet v.properties pk).getD .pyNone) = false →
      ∃ pkey, plm pk = some pkey ∧ dGet props₂ pk = some (defaultFor pkey) := by
    intro pk hpk hfk
    obtain ⟨pkey, hplm, hget1⟩ := fal1 pk hpk hfk
    have hhk1 : dHasKey props₁ pk = true := dHasKey_of_dGet_eq_some hget1
    by_cases hmem : pk ∈ nonNullKeys L
    · exact ⟨pkey, hplm, (pres2 pk hmem hhk1).trans hget1⟩
    · exact ⟨pkey, hplm, (unt2 pk hmem).trans hget1⟩
  have hnnclause : ∀ k ∈ nonNullKeys L, dHasKey v.properties k = false →
      ∃ pkey, plm k = some pkey ∧ dGet props₂ k = some (defaultFor pkey) := by
    intro k hk hak
    by_cases hmem : k ∈ L.primary_keys
    · have hfk : pyTruthy ((dGet v.properties k).getD .pyNone) = false := by
        rw [dGet_of_dHasKey_eq_false hak]
        rfl
      obtain ⟨pkey, hplm, hget1⟩ := fal1 k hmem hfk
      have hhk1 : dHasKey props₁ k = true := dHasKey_of_dGet_eq_some hget1
      exact ⟨pkey, hplm, (pres2 k hk hhk1).trans hget1⟩
    · obtain ⟨_, hhk1⟩ := unt1 k hmem
      obtain ⟨pkey, hplm, hget2⟩ := abs2 k hk (hhk1.trans hak)
      exact ⟨pkey, hplm, hget2⟩
  rw [processVertex]
  simp only [hL, heq1, heq2, hchk]
  cases hresp : store (Call.addVertex v.label props₂ none) with
  | ok vid =>
    exact ⟨props₂, { v with properties := props₂, id := some vid }, rfl, rfl, rfl,
      hpkclause, hnnclause⟩
  | notFound e =>
    exact ⟨props₂, { v with properties := props₂ }, rfl, rfl, rfl, hpkclause, hnnclause⟩
  | createError e =>
    exact ⟨props₂, { v with properties := props₂ }, rfl, rfl, rfl, hpkclause, hnnclause⟩

theorem processVertex_isOk_indep (store₁ store₂ : Store) (vlm : String → Option VertexLabel)
    (plm : String → Option PropertyKey) (v : Vertex) :
    exceptIsOk (processVertex store₁ vlm plm v)
      = exceptIsOk (processVertex store₂ vlm plm v) := by
  rw [processVertex, processVertex]
  cases vlm v.label with
  | none => rfl
  | some L =>
    dsimp only
    cases handlePrimaryKeys plm L.primary_keys.length L.primary_keys v.properties with
    | error e => rfl
    | ok pr =>
      obtain ⟨props, flag⟩ := pr
      cases flag with
      | true => rfl
      | false =>
        dsimp only
        cases fillNonNullable plm (nonNullKeys L) props with
        | error e => rfl
        | ok props' =>
          dsimp only
          cases checkAllProps plm props' with
          | error e => rfl
          | ok b =>
            cases b with
            | true => rfl
            | false =>
              dsimp only
              cases store₁ (Call.addVertex v.label props' none) <;>
                cases store₂ (Call.addVertex v.label props' none) <;> rfl

theorem processVertices_isOk_indep (store₁ store₂ : Store) (vlm : String → Option VertexLabel)
    (plm : String → Option PropertyKey) (vs : List Vertex) :
    exceptIsOk (processVertices store₁ vlm plm vs).2
      = exceptIsOk (processVertices store₂ vlm plm vs).2 := by
  induction vs with
  | nil => rfl
  | cons v rest ih =>
    rw [processVertices, processVertices]
    have h := processVertex_isOk_indep store₁ store₂ vlm plm v
    cases h₁ : processVertex store₁ vlm plm v with
    | error e =>
      cases h₂ : processVertex store₂ vlm plm v with
      | error e' => rfl
      | ok x =>
        rw [h₁, h₂] at h
        simp [exceptIsOk] at h
    | ok x =>
      cases h₂ : processVertex store₂ vlm plm v with
      | error e' =>
        rw [h₁, h₂] at h
        simp [exceptIsOk] at h
      | ok y =>
        obtain ⟨v₁, c₁⟩ := x
        obtain ⟨v₂, c₂⟩ := y
        cases hr₁ : processVertices store₁ vlm plm rest with
        | mk t₁ r₁ =>
          cases hr₂ : processVertices store₂ vlm plm rest with
          | mk t₂ r₂ =>
            rw [hr₁, hr₂] at ih
            cases r₁ <;> cases r₂ <;> simp_all [exceptIsOk, Except.map]

theorem load_into_graph_isOk_indep (store₁ store₂ : Store) (vs : List Vertex)
    (es : List Edge) (schema : Schema) :
    exceptIsOk (load_into_graph store₁ vs es schema).2
      = exceptIsOk (load_into_graph store₂ vs es schema).2 := by
  rw [load_into_graph, load_into_graph]
  have h := processVertices_isOk_indep store₁ store₂
    (vertexLabelMap schema) (propertyLabelMap schema) vs
  cases hr₁ : processVertices store₁ (vertexLabelMap schema) (propertyLabelMap schema) vs with
  | mk t₁ r₁ =>
    cases hr₂ : processVertices store₂ (vertexLabelMap schema) (propertyLabelMap schema) vs with
    | mk t₂ r₂ =>
      rw [hr₁, hr₂] at h
      cases r₁ <;> cases r₂ <;> simp_all [exceptIsOk, Except.map]

theorem schema_free_mode_notFound_propagates (msg : String) (s p o : String)
    (rest : List (String × String × String)) :
    (schema_free_mode (fun _ => .notFound msg) ((s, p, o) :: rest)).2
      = .error ("NotFoundError: " ++ msg) := rfl

theorem run_empty_input (store : Store) (data : RunData)
    (hv : data.vertices = []) (he : data.edges = []) :
    run store data = ([], .error "Both vertices and edges input are empty.") := by
  rw [run, if_pos (by simp [hv, he])]

theorem run_schema_free (store : Store) (data : RunData) (hs : data.schema = none)
    (hne : ¬(data.vertices = [] ∧ data.edges = [])) :
    run store data
      = ((schema_free_mode store data.triples).1,
         ((schema_free_mode store data.triples).2).map (fun _ => data)) := by
  rw [run, if_neg (by simpa [List.isEmpty_iff] using hne)]
  simp only [hs]

theorem schema_free_mode_no_triples (store : Store) :
    schema_free_mode store [] = (genericSchemaCalls, .ok ()) := by
  rw [schema_free_mode]
  simp [processTriples]

end CommitToKg

namespace MergeDedupRerank

theorem bleu_rerank_perm (score : String → ℚ) (order : List String) :
    List.Perm (_bleu_rerank score order) order := by
  unfold _bleu_rerank
  have h := List.perm_insertionSort (fun x y : String × ℚ => y.2 ≤ x.2)
    (order.map (fun res => (res, score res)))
  have h2 := h.map (fun x : String × ℚ => x.1)
  have h3 : List.map ((fun x : String × ℚ => x.1) ∘ fun res => (res, score res)) order
      = order := by
    simp [Function.comp_def]
  rw [List.map_map, h3] at h2
  exact h2

theorem bleu_rerank_mem {score : String → ℚ} {order : List String} {x : String} :
    x ∈ _bleu_rerank score order ↔ x ∈ order :=
  (bleu_rerank_perm score order).mem_iff

theorem bleu_rerank_nodup (score : String → ℚ) {order : List String} (h : order.Nodup) :
    (_bleu_rerank score order).Nodup :=
  ((bleu_rerank_perm score order).nodup_iff).2 h

theorem bleu_rerank_sorted (score : String → ℚ) (order : List String) :
    List.Pairwise (fun a b => score b ≤ score a) (_bleu_rerank score order) := by
  unfold _bleu_rerank
  haveI : IsTotal (String × ℚ) (fun x y => y.2 ≤ x.2) := ⟨fun a b => le_total b.2 a.2⟩
  haveI : IsTrans (String × ℚ) (fun x y => y.2 ≤ x.2) :=
    ⟨fun a b c hab hbc => le_trans hbc hab⟩
  have hs := List.sorted_insertionSort (fun x y : String × ℚ => y.2 ≤ x.2)
    (order.map (fun res => (res, score res)))
  have hmem : ∀ x ∈ (order.map (fun res => (res, score res))).insertionSort
      (fun x y => y.2 ≤ x.2), x.2 = score x.1 := by
    intro x hx
    obtain ⟨res, hres, rfl⟩ := List.mem_map.1 ((List.mem_insertionSort _).1 hx)
    rfl
  rw [List.pairwise_map]
  exact hs.imp_of_mem (fun ha hb hr => by
    rw [← hmem _ ha, ← hmem _ hb]
    exact hr)

theorem bleu_rerank_stable (score : String → ℚ) (order : List String) (a b : String)
    (hab : score b ≤ score a) (h : [a, b].Sublist order) :
    ([a, b] : List String).Sublist (_bleu_rerank score order) := by
  unfold _bleu_rerank
  have hmap : [(a, score a), (b, score b)].Sublist
      (order.map (fun res => (res, score res))) := by
    have := h.map (fun res => (res, score res))
    simpa using this
  have hsl := @List.pair_sublist_insertionSort (String × ℚ)
    (fun x y => y.2 ≤ x.2)
    (inferInstanceAs (DecidableRel (fun x y : String × ℚ => y.2 ≤ x.2)))
    (a, score a) (b, score b) (order.map (fun res => (res, score res))) hab hmap
  have h2 := hsl.map (fun x : String × ℚ => x.1)
  simpa using h2

end MergeDedupRerank

namespace CommitToKg

theorem processVertices_append_ok (store : Store) (vlm : String → Option VertexLabel)
    (plm : String → Option PropertyKey) (xs ys : List Vertex) :
    ∀ (t₁ : List Call) (vs₁ : List Vertex),
    processVertices store vlm plm xs = (t₁, .ok vs₁) →
    processVertices store vlm plm (xs ++ ys)
      = (t₁ ++ (processVertices store vlm plm ys).1,
         ((processVertices store vlm plm ys).2).map (fun vs₂ => vs₁ ++ vs₂)) := by
  induction xs with
  | nil =>
    intro t₁ vs₁ h
    rw [processVertices] at h
    injection h with h1 h2
    subst h1
    injection h2 with h3
    subst h3
    rw [List.nil_append]
    cases hy : processVertices store vlm plm ys with
    | mk ty ry =>
      cases ry <;> simp [Except.map]
  | cons x xs ih =>
    intro t₁ vs₁ h
    rw [processVertices] at h
    rw [List.cons_append, processVertices]
    cases hx : processVertex store vlm plm x with
    | error e =>
      rw [hx] at h
      simp at h
    | ok pr =>
      obtain ⟨v', calls⟩ := pr
      rw [hx] at h
      cases hxs : processVertices store vlm plm xs with
      | mk txs rxs =>
        rw [hxs] at h
        cases rxs with
        | error e => simp [Except.map] at h
        | ok vsxs =>
          simp only [Except.map] at h
          injection h with h1 h2
          subst h1
          injection h2 with h3
          subst h3
          rw [ih txs vsxs hxs]
          cases hy : processVertices store vlm plm ys with
          | mk ty ry =>
            cases ry <;> simp [Except.map, List.append_assoc]

theorem load_into_graph_error (store : Store) (vs : List Vertex) (es : List Edge)
    (schema : Schema) (t : List Call) (e : String)
    (h : processVertices store (vertexLabelMap schema) (propertyLabelMap schema) vs
      = (t, .error e)) :
    load_into_graph store vs es schema = (t, .error e) := by
  rw [load_into_graph]
  simp only [h]

theorem run_schema_defined (store : Store) (data : RunData) (schema : Schema)
    (hs : data.schema = some schema) (hne : ¬(data.vertices = [] ∧ data.edges = [])) :
    run store data
      = (init_schema_if_need schema
          ++ (load_into_graph store data.vertices data.edges schema).1,
         ((load_into_graph store data.vertices data.edges schema).2).map
           (fun vs => { data with vertices := vs })) := by
  rw [run, if_neg (by simpa [List.isEmpty_iff] using hne)]
  simp only [hs]

theorem schema_free_mode_createError_propagates (msg : String) (s p o : String)
    (rest : List (String × String × String)) :
    (schema_free_mode (fun _ => .createError msg) ((s, p, o) :: rest)).2
      = .error ("CreateError: " ++ msg) := rfl

theorem checkSingle_no_raise {dt : String} (h : dt ∈ recognizedDataTypes) (v : PyVal) :
    ∃ b, checkSingle dt v = .ok b := by
  simp [recognizedDataTypes] at h
  rcases h with rfl|rfl|rfl|rfl|rfl|rfl|rfl|rfl|rfl|rfl <;> exact ⟨_, rfl⟩

theorem checkSingle_iff_spec {dt : String} (h : dt ∈ recognizedDataTypes) (v : PyVal) :
    checkSingle dt v = .ok true ↔ specSingleOk dt v := by
  simp [recognizedDataTypes] at h
  rcases h with rfl|rfl|rfl|rfl|rfl|rfl|rfl|rfl|rfl|rfl <;> cases v <;>
    simp [checkSingle, specSingleOk, IsBooleanVal, IsIntegerVal, IsFloatVal, IsStringVal,
      isinstance_bool, isinstance_int, isinstance_float, isinstance_str,
      PropertyDataType.BOOLEAN, PropertyDataType.BYTE, PropertyDataType.INT,
      PropertyDataType.LONG, PropertyDataType.FLOAT, PropertyDataType.DOUBLE,
      PropertyDataType.TEXT, PropertyDataType.BLOB, PropertyDataType.DATE,
      PropertyDataType.UUID]

theorem checkItems_iff_spec {dt : String} (h : dt ∈ recognizedDataTypes)
    (items : List PyVal) :
    checkItems dt items = .ok true ↔ ∀ x ∈ items, specSingleOk dt x := by
  induction items with
  | nil => simp [checkItems]
  | cons x rest ih =>
    obtain ⟨b, hb⟩ := checkSingle_no_raise h x
    rw [checkItems]
    cases b with
    | false =>
      have hx : ¬ specSingleOk dt x := by
        rw [← checkSingle_iff_spec h x, hb]
        simp
      simp [hb, hx]
    | true =>
      have hx : specSingleOk dt x := (checkSingle_iff_spec h x).1 hb
      simp [hb, hx, ih]

theorem checkSingle_unknown_raises {dt : String} (h : dt ∉ recognizedDataTypes) (v : PyVal) :
    checkSingle dt v = .error ("Unknown data type: " ++ dt) := by
  simp [recognizedDataTypes] at h
  obtain ⟨h1, h2, h3, h4, h5, h6, h7, h8, h9, h10⟩ := h
  simp [checkSingle, h1, h2, h3, h4, h5, h6, h7, h8, h9, h10]

end CommitToKg

open CommitToKg in
/-- Claim C1: for every vertex whose label has exactly one primary key, if that
primary-key property is missing or empty in the vertex's properties, the commit
drops that vertex — `processVertex` returns the vertex unchanged (in particular
its `id` stays as it was, so no store-assigned id is attached) with an empty
call trace, so no `addVertex` call is issued for it — and the vertex loop
continues with the remaining vertices, whose calls and results are exactly
those obtained without the dropped vertex. -/
theorem C1_single_primary_key_vertex_dropped
    (store : Store) (schema : Schema) (v : Vertex) (rest : List Vertex)
    (L : VertexLabel) (pk : String)
    (hL : vertexLabelMap schema v.label = some L)
    (hpk : L.primary_keys = [pk])
    (hme : MissingOrEmpty v.properties pk) :
    processVertex store (vertexLabelMap schema) (propertyLabelMap schema) v = .ok (v, [])
      ∧ processVertices store (vertexLabelMap schema) (propertyLabelMap schema) (v :: rest)
        = ((processVertices store (vertexLabelMap schema) (propertyLabelMap schema) rest).1,
           (processVertices store (vertexLabelMap schema)
              (propertyLabelMap schema) rest).2.map (fun vs => v :: vs)) := by
  have h1 := processVertex_single_missing store (vertexLabelMap schema)
    (propertyLabelMap schema) v L pk hL hpk (pyTruthy_of_missingOrEmpty hme)
  refine ⟨h1, ?_⟩
  rw [processVertices_cons_ok store (vertexLabelMap schema) (propertyLabelMap schema)
    v v [] rest h1]
  rw [List.nil_append]

open CommitToKg in
/-- Claim C2: for every vertex whose label has more than one primary key, every
missing-or-empty primary-key property and every absent non-nullable property is
injected with the type-appropriate default — `defaultFor`: the empty list `[]`
when the declared cardinality is LIST or SET, otherwise the zero value of the
declared scalar data type via `default_value_map` — and the vertex is still
submitted for creation: its trace is exactly one `addVertex` call carrying the
repaired property dict.  The hypotheses make the involved schema keys well
formed and the vertex's own property values well typed, so no other rule drops
the vertex first (`default_value_map` and the enum values are modelled from the
spec, their module not being among the sources). -/
theorem C2_multi_pk_defaults_and_submit
    (store : Store) (schema : Schema) (v : Vertex) (L : VertexLabel)
    (hL : vertexLabelMap schema v.label = some L)
    (hmulti : 1 < L.primary_keys.length)
    (hndpk : L.primary_keys.Nodup)
    (hndnn : (nonNullKeys L).Nodup)
    (hwfpk : ∀ pk ∈ L.primary_keys, KeyWF (propertyLabelMap schema) pk)
    (hwfnn : ∀ k ∈ nonNullKeys L, KeyWF (propertyLabelMap schema) k)
    (hprops : ∀ p ∈ v.properties, PropOk (propertyLabelMap schema) p) :
    ∃ props₂ v',
      processVertex store (vertexLabelMap schema) (propertyLabelMap schema) v
        = .ok (v', [Call.addVertex v.label props₂ none])
      ∧ v'.properties = props₂
      ∧ (∀ pk ∈ L.primary_keys, MissingOrEmpty v.properties pk →
          ∃ pkey, propertyLabelMap schema pk = some pkey
            ∧ dGet props₂ pk = some (defaultFor pkey))
      ∧ (∀ k ∈ nonNullKeys L, dHasKey v.properties k = false →
          ∃ pkey, propertyLabelMap schema k = some pkey
            ∧ dGet props₂ k = some (defaultFor pkey)) := by
  obtain ⟨props₂, v', heq, hlab, hvp, hpkc, hnnc⟩ :=
    processVertex_multi_pk_defaults store (vertexLabelMap schema) (propertyLabelMap schema)
      v L hL (by omega) hndpk hndnn hwfpk hwfnn hprops
  exact ⟨props₂, v', heq, hvp,
    fun pk hpk hme => hpkc pk hpk (pyTruthy_of_missingOrEmpty hme), hnnc⟩

open CommitToKg in
/-- Claim C4: for every vertex one of whose present properties has a runtime
value failing the type check against its declared (data_type, cardinality), the
vertex is skipped — `processVertex` returns it unchanged with an empty trace,
so no `addVertex` call is issued and no id is attached — while every sibling
vertex in the batch, before and after it, is processed exactly as it would be
without the failing vertex.  The hypotheses keep the failing vertex from being
dropped earlier (label present, primary keys truthy, non-nullables present) and
keep its property checks from raising instead of failing. -/
theorem C4_type_mismatch_vertex_skipped
    (store : Store) (schema : Schema) (vs₁ : List Vertex) (v : Vertex) (vs₂ : List Vertex)
    (L : VertexLabel) (t₁ : List Call) (vsOk : List Vertex)
    (hL : vertexLabelMap schema v.label = some L)
    (hpks : ∀ pk ∈ L.primary_keys, pyTruthy ((dGet v.properties pk).getD .pyNone) = true)
    (hnn : ∀ k ∈ nonNullKeys L, dHasKey v.properties k = true)
    (hall : ∀ p ∈ v.properties, PropNoRaise (propertyLabelMap schema) p)
    (hbad : ∃ p ∈ v.properties, PropBad (propertyLabelMap schema) p)
    (hpref : processVertices store (vertexLabelMap schema) (propertyLabelMap schema) vs₁
      = (t₁, .ok vsOk)) :
    processVertex store (vertexLabelMap schema) (propertyLabelMap schema) v = .ok (v, [])
      ∧ processVertices store (vertexLabelMap schema) (propertyLabelMap schema)
          (vs₁ ++ v :: vs₂)
        = (t₁ ++ (processVertices store (vertexLabelMap schema)
              (propertyLabelMap schema) vs₂).1,
           (processVertices store (vertexLabelMap schema)
              (propertyLabelMap schema) vs₂).2.map (fun vs => vsOk ++ v :: vs)) := by
  have h1 := processVertex_type_mismatch store (vertexLabelMap schema)
    (propertyLabelMap schema) v L hL hpks hnn hall hbad
  refine ⟨h1, ?_⟩
  rw [processVertices_append_ok store (vertexLabelMap schema) (propertyLabelMap schema)
    vs₁ (v :: vs₂) t₁ vsOk hpref]
  rw [processVertices_cons_ok store (vertexLabelMap schema) (propertyLabelMap schema)
    v v [] vs₂ h1]
  rw [List.nil_append]
  cases hy : processVertices store (vertexLabelMap schema) (propertyLabelMap schema) vs₂ with
  | mk ty ry => cases ry <;> simp [Except.map]

open CommitToKg in
/-- Claim C9: for every vertex whose properties contain a name absent from the
schema's propertykeys, the per-vertex type-check loop's unguarded
`property_label_map[key]` subscript raises `KeyError`: `processVertex` returns
an error instead of skipping the vertex, the vertex loop stops there issuing no
further calls, and the whole `run` invocation aborts with that error.  The
hypotheses route the vertex past the earlier loops (label present, primary keys
truthy, non-nullables present) and make the unknown name the first one the
type-check loop cannot resolve. -/
theorem C9_unknown_property_aborts_commit
    (store : Store) (schema : Schema) (v : Vertex) (vs₂ : List Vertex) (L : VertexLabel)
    (pre : PropDict) (k : String) (val : PyVal) (post : PropDict)
    (hL : vertexLabelMap schema v.label = some L)
    (hpks : ∀ pk ∈ L.primary_keys, pyTruthy ((dGet v.properties pk).getD .pyNone) = true)
    (hnn : ∀ k' ∈ nonNullKeys L, dHasKey v.properties k' = true)
    (hsplit : v.properties = pre ++ (k, val) :: post)
    (hpre : ∀ p ∈ pre, PropOk (propertyLabelMap schema) p)
    (hkey : propertyLabelMap schema k = none) :
    processVertex store (vertexLabelMap schema) (propertyLabelMap schema) v
        = .error ("KeyError: " ++ k)
      ∧ processVertices store (vertexLabelMap schema) (propertyLabelMap schema) (v :: vs₂)
        = ([], .error ("KeyError: " ++ k))
      ∧ ∀ data : RunData, data.schema = some schema → data.vertices = v :: vs₂ →
          (run store data).2 = .error ("KeyError: " ++ k) := by
  have h1 := processVertex_unknown_property store (vertexLabelMap schema)
    (propertyLabelMap schema) v L pre k val post hL hpks hnn hsplit hpre hkey
  have h2 := processVertices_cons_error store (vertexLabelMap schema)
    (propertyLabelMap schema) v vs₂ ("KeyError: " ++ k) h1
  refine ⟨h1, h2, ?_⟩
  intro data hds hdv
  have hne : ¬(data.vertices = [] ∧ data.edges = []) := by
    rw [hdv]
    intro hcontra
    exact List.cons_ne_nil v vs₂ hcontra.1
  rw [run_schema_defined store data schema hds hne]
  rw [hdv, load_into_graph_error store (v :: vs₂) data.edges schema []
    ("KeyError: " ++ k) h2]
  rfl

/-- Claim C3 counterexample: with an unrecognized data type ("WEIRD") at LIST
cardinality, `_check_property_data_type` returns `False` for a non-sequence
value and `True` for an empty sequence — it does not raise, contradicting the
claim that for any unrecognized data_type the check raises an exception
immediately rather than returning false. -/
theorem C3_counterexample :
    "WEIRD" ∉ recognizedDataTypes
      ∧ CommitToKg._check_property_data_type "WEIRD" PropertyCardinality.LIST (.pyInt 3)
          = .ok false
      ∧ CommitToKg._check_property_data_type "WEIRD" PropertyCardinality.LIST (.pyList [])
          = .ok true :=
  ⟨by decide, rfl, rfl⟩

/-- Claim C3 amended: the type-check predicate agrees with the recursive
reference definition (`specTypeOk`, written from the spec's words) for every
recognized data type — at LIST/SET cardinality the value must be a list whose
every element satisfies the SINGLE check, and at SINGLE cardinality boolean
accepts booleans, byte/int/long accept integers (Python booleans included),
float/double accept floats and text/blob/date/uuid accept strings.  An
unrecognized data type raises exactly when the SINGLE-cardinality dispatch is
reached; at LIST/SET cardinality the cardinality branch runs first, so a
non-sequence value yields false and an empty sequence yields true without the
data type being consulted. -/
theorem C3_amended_typecheck :
    (∀ (dt card : String) (v : PyVal), dt ∈ recognizedDataTypes →
        (CommitToKg._check_property_data_type dt card v = .ok true ↔ specTypeOk dt card v))
    ∧ (∀ (dt : String) (v : PyVal), dt ∉ recognizedDataTypes →
        CommitToKg.checkSingle dt v = .error ("Unknown data type: " ++ dt))
    ∧ (∀ (dt card : String) (v : PyVal),
        ¬(card = PropertyCardinality.LIST ∨ card = PropertyCardinality.SET) →
        CommitToKg._check_property_data_type dt card v = CommitToKg.checkSingle dt v)
    ∧ (∀ (dt card : String) (v : PyVal),
        (card = PropertyCardinality.LIST ∨ card = PropertyCardinality.SET) →
        isinstance_list v = false →
        CommitToKg._check_property_data_type dt card v = .ok false)
    ∧ (∀ (dt card : String),
        (card = PropertyCardinality.LIST ∨ card = PropertyCardinality.SET) →
        CommitToKg._check_property_data_type dt card (.pyList []) = .ok true) := by
  refine ⟨?_, ?_, ?_, ?_, ?_⟩
  · intro dt card v hdt
    by_cases hc : card = PropertyCardinality.LIST ∨ card = PropertyCardinality.SET
    · have hcb : (card == PropertyCardinality.LIST || card == PropertyCardinality.SET)
          = true := by
        rcases hc with rfl | rfl <;> simp
      rw [specTypeOk, if_pos hc]
      delta CommitToKg._check_property_data_type
      rw [if_pos hcb]
      cases v with
      | pyList items =>
        rw [show (match PyVal.pyList items with
            | PyVal.pyList items => CommitToKg.checkItems dt items
            | _ => Except.ok false) = CommitToKg.checkItems dt items from rfl]
        rw [CommitToKg.checkItems_iff_spec hdt]
        simp
      | pyBool b => simp
      | pyInt n => simp
      | pyFloat q => simp
      | pyStr s => simp
      | pyNone => simp
    · have hcb : (card == PropertyCardinality.LIST || card == PropertyCardinality.SET)
          = false := by
        rcases not_or.1 hc with ⟨h1, h2⟩
        simp [h1, h2]
      rw [specTypeOk, if_neg hc]
      delta CommitToKg._check_property_data_type
      rw [if_neg (by simp [hcb])]
      exact CommitToKg.checkSingle_iff_spec hdt v
  · intro dt v hdt
    exact CommitToKg.checkSingle_unknown_raises hdt v
  · intro dt card v hc
    have hcb : (card == PropertyCardinality.LIST || card == PropertyCardinality.SET)
        = false := by
      rcases not_or.1 hc with ⟨h1, h2⟩
      simp [h1, h2]
    delta CommitToKg._check_property_data_type
    rw [if_neg (by simp [hcb])]
  · intro dt card v hc hv
    have hcb : (card == PropertyCardinality.LIST || card == PropertyCardinality.SET)
        = true := by
      rcases hc with rfl | rfl <;> simp
    delta CommitToKg._check_property_data_type
    rw [if_pos hcb]
    cases v <;> simp_all [isinstance_list]
  · intro dt card hc
    have hcb : (card == PropertyCardinality.LIST || card == PropertyCardinality.SET)
        = true := by
      rcases hc with rfl | rfl <;> simp
    delta CommitToKg._check_property_data_type
    rw [if_pos hcb]
    rfl

open CommitToKg in
/-- Claim C5: for every commit input in which both the vertices list and the
edges list are empty, `run` raises the empty-input error before issuing any
store call: its trace is empty (no schema-creation and no entity-creation call)
and its result is the error, regardless of schema or triples. -/
theorem C5_empty_input_raises_untouched (store : Store) (data : RunData)
    (hv : data.vertices = []) (he : data.edges = []) :
    run store data = ([], .error "Both vertices and edges input are empty.") :=
  run_empty_input store data hv he

/-- Claim C6 counterexample: in schema-free mode the `addVertex` call for the
first triple's subject is not wrapped in try/except, so a `NotFoundError`
response from the store propagates to the caller instead of being caught and
logged, contradicting the claim for schema-free mode. -/
theorem C6_counterexample :
    (CommitToKg.schema_free_mode (fun _ => .notFound "vertex not found")
        [("a", "b", "c")]).2
      = .error "NotFoundError: vertex not found" := rfl

open CommitToKg in
/-- Claim C6 amended: in schema-defined mode (`load_into_graph`) the not-found
and create-conflict responses of the store to `addVertex`/`addEdge` are caught
and never propagate — whether the whole call succeeds or aborts is independent
of the store's responses — but in schema-free mode either error response to the
first triple's `addVertex` propagates to the caller and aborts the loop. -/
theorem C6_amended_error_handling :
    (∀ (store₁ store₂ : Store) (vs : List Vertex) (es : List Edge) (schema : Schema),
        exceptIsOk (load_into_graph store₁ vs es schema).2
          = exceptIsOk (load_into_graph store₂ vs es schema).2)
    ∧ (∀ (msg s p o : String) (rest : List (String × String × String)),
        (schema_free_mode (fun _ => .notFound msg) ((s, p, o) :: rest)).2
          = .error ("NotFoundError: " ++ msg))
    ∧ (∀ (msg s p o : String) (rest : List (String × String × String)),
        (schema_free_mode (fun _ => .createError msg) ((s, p, o) :: rest)).2
          = .error ("CreateError: " ++ msg)) :=
  ⟨fun store₁ store₂ vs es schema => load_into_graph_isOk_indep store₁ store₂ vs es schema,
   fun msg s p o rest => schema_free_mode_notFound_propagates msg s p o rest,
   fun msg s p o rest => schema_free_mode_createError_propagates msg s p o rest⟩

/-- Claim C7 counterexample: `["b", "a"]` is a legitimate iteration order of
`set(["a", "b"])` (CPython's set order is hash-dependent and unspecified), and
with equal scores the rerank keeps that order, so the tie between "a" and "b"
is not broken by their original relative order in the input list (which would
give `["a", "b"]`). -/
theorem C7_counterexample :
    MergeDedupRerank.IsSetList ["a", "b"] ["b", "a"]
      ∧ MergeDedupRerank._bleu_rerank (fun _ => (0 : ℚ)) ["b", "a"] = ["b", "a"]
      ∧ (["b", "a"] : List String) ≠ ["a", "b"] :=
  ⟨by constructor <;> decide, by decide, by decide⟩

/-- Claim C7 amended: the reranked sequence is ordered by score descending, and
ties between equal-scored candidates are broken by the candidates' relative
order in the deduplicated list produced by `list(set(results))` — an
unspecified order that need not match the input order — the sort itself being
stable over that list. -/
theorem C7_amended_rerank_order (score : String → ℚ) (order : List String) :
    List.Pairwise (fun a b => score b ≤ score a) (MergeDedupRerank._bleu_rerank score order)
      ∧ ∀ a b : String, score a = score b → List.Sublist [a, b] order →
          List.Sublist [a, b] (MergeDedupRerank._bleu_rerank score order) :=
  ⟨MergeDedupRerank.bleu_rerank_sorted score order,
   fun a b hab hsub => MergeDedupRerank.bleu_rerank_stable score order a b (le_of_eq hab.symm) hsub⟩

theorem C7_amended_witness :
    ((fun _ : String => (0 : ℚ)) "a" = (fun _ : String => (0 : ℚ)) "b")
      ∧ List.Sublist ["a", "b"] ["a", "b"]
      ∧ List.Sublist ["a", "b"]
          (MergeDedupRerank._bleu_rerank (fun _ => (0 : ℚ)) ["a", "b"]) :=
  ⟨rfl, by decide,
   (C7_amended_rerank_order (fun _ => (0 : ℚ)) ["a", "b"]).2 "a" "b" rfl (by decide)⟩

namespace MergeDedupRerank

theorem rerank_take_spec (score : String → ℚ) (topk : Nat) (input order : List String)
    (h : IsSetList input order) :
    ((_bleu_rerank score order).take topk).length ≤ topk
      ∧ ((_bleu_rerank score order).take topk).Nodup
      ∧ (∀ x ∈ (_bleu_rerank score order).take topk, x ∈ input)
      ∧ List.Pairwise (fun a b => score b ≤ score a)
          ((_bleu_rerank score order).take topk) := by
  obtain ⟨hnd, hsub, _⟩ := h
  refine ⟨List.length_take_le _ _, ?_, ?_, ?_⟩
  · exact List.Nodup.sublist (List.take_sublist _ _) (bleu_rerank_nodup score hnd)
  · intro x hx
    exact hsub x (bleu_rerank_mem.1 (List.take_subset _ _ hx))
  · exact List.Pairwise.sublist (List.take_sublist _ _) (bleu_rerank_sorted score order)

end MergeDedupRerank

/-- Claim C8: for every query and candidate lists, each reranked output list of
`MergeDedupRerank.run` has length at most topK, contains no candidate twice,
contains no candidate absent from the corresponding input list, and its
associated scores are non-increasing from first to last element.  `vOrder` and
`gOrder` are the (unspecified) iteration orders of `list(set(...))` over the
two input lists. -/
theorem C8_rerank_output_bounded (score : String → String → ℚ) (topk : Nat)
    (vOrder gOrder : List String) (c : MergeDedupRerank.RerankContext)
    (hv : MergeDedupRerank.IsSetList c.vector_result vOrder)
    (hg : MergeDedupRerank.IsSetList c.graph_result gOrder) :
    ((MergeDedupRerank.run score topk vOrder gOrder c).vector_result.length ≤ topk
      ∧ (MergeDedupRerank.run score topk vOrder gOrder c).vector_result.Nodup
      ∧ (∀ x ∈ (MergeDedupRerank.run score topk vOrder gOrder c).vector_result,
          x ∈ c.vector_result)
      ∧ List.Pairwise (fun a b => score c.query b ≤ score c.query a)
          (MergeDedupRerank.run score topk vOrder gOrder c).vector_result)
    ∧ ((MergeDedupRerank.run score topk vOrder gOrder c).graph_result.length ≤ topk
      ∧ (MergeDedupRerank.run score topk vOrder gOrder c).graph_result.Nodup
      ∧ (∀ x ∈ (MergeDedupRerank.run score topk vOrder gOrder c).graph_result,
          x ∈ c.graph_result)
      ∧ List.Pairwise (fun a b => score c.query b ≤ score c.query a)
          (MergeDedupRerank.run score topk vOrder gOrder c).graph_result) :=
  ⟨MergeDedupRerank.rerank_take_spec (score c.query) topk c.vector_result vOrder hv,
   MergeDedupRerank.rerank_take_spec (score c.query) topk c.graph_result gOrder hg⟩

open CommitToKg in
/-- Claim C10: when the input carries no schema, `run` commits only the triples
list in schema-free mode: (i) with empty vertices and edges it raises the
empty-input error making no store call even when triples are non-empty; (ii)
otherwise its trace and outcome are exactly those of `schema_free_mode` on the
triples, so the vertices and edges lists are never read beyond the emptiness
check; and (iii) with non-empty vertices and an empty triples list it creates
only the five generic schema objects and no entities. -/
theorem C10_schema_free_ignores_vertices_edges (store : Store) (data : RunData)
    (hs : data.schema = none) :
    (data.vertices = [] → data.edges = [] →
        run store data = ([], .error "Both vertices and edges input are empty."))
      ∧ (¬(data.vertices = [] ∧ data.edges = []) →
          run store data
            = ((schema_free_mode store data.triples).1,
               ((schema_free_mode store data.triples).2).map (fun _ => data)))
      ∧ (data.vertices ≠ [] → data.triples = [] →
          run store data = (genericSchemaCalls, .ok data)) := by
  refine ⟨fun hv he => run_empty_input store data hv he,
    fun hne => run_schema_free store data hs hne, ?_⟩
  intro hv ht
  rw [run_schema_free store data hs (fun hcontra => hv hcontra.1)]
  rw [ht, schema_free_mode_no_triples store]
  rfl

/-- Witness for C1: a "person" label keyed solely by "name", and a vertex whose
"name" is the empty string, is dropped with no store call. -/
theorem C1_witness :
    CommitToKg.vertexLabelMap
        ⟨[⟨"name", "TEXT", "SINGLE"⟩], [⟨"person", ["name"], ["name"], []⟩], []⟩
        (Vertex.mk "person" [("name", .pyStr "")] none).label
      = some ⟨"person", ["name"], ["name"], []⟩
    ∧ (VertexLabel.mk "person" ["name"] ["name"] []).primary_keys = ["name"]
    ∧ MissingOrEmpty (Vertex.mk "person" [("name", .pyStr "")] none).properties "name"
    ∧ CommitToKg.processVertex (fun _ => .ok (.pyStr "v1"))
        (CommitToKg.vertexLabelMap
          ⟨[⟨"name", "TEXT", "SINGLE"⟩], [⟨"person", ["name"], ["name"], []⟩], []⟩)
        (CommitToKg.propertyLabelMap
          ⟨[⟨"name", "TEXT", "SINGLE"⟩], [⟨"person", ["name"], ["name"], []⟩], []⟩)
        (Vertex.mk "person" [("name", .pyStr "")] none)
      = .ok (Vertex.mk "person" [("name", .pyStr "")] none, []) :=
  ⟨rfl, rfl, Or.inr ⟨.pyStr "", rfl, Or.inl rfl⟩,
   (C1_single_primary_key_vertex_dropped (fun _ => .ok (.pyStr "v1"))
      ⟨[⟨"name", "TEXT", "SINGLE"⟩], [⟨"person", ["name"], ["name"], []⟩], []⟩
      (Vertex.mk "person" [("name", .pyStr "")] none) []
      ⟨"person", ["name"], ["name"], []⟩ "name" rfl rfl
      (Or.inr ⟨.pyStr "", rfl, Or.inl rfl⟩)).1⟩

/-- Witness for C2: a "person" label with composite primary key (name, age); a
vertex carrying only "name" gets "age" defaulted to `0` and is still created —
the concrete evaluation reproduces the spec's own example (`properties.age == 0`
with an assigned id). -/
theorem C2_witness :
    CommitToKg.vertexLabelMap
        ⟨[⟨"name", "TEXT", "SINGLE"⟩, ⟨"age", "INT", "SINGLE"⟩],
         [⟨"person", ["name", "age"], ["name", "age"], []⟩], []⟩
        (Vertex.mk "person" [("name", .pyStr "Alice")] none).label
      = some ⟨"person", ["name", "age"], ["name", "age"], []⟩
    ∧ 1 < (VertexLabel.mk "person" ["name", "age"] ["name", "age"] []).primary_keys.length
    ∧ (VertexLabel.mk "person" ["name", "age"] ["name", "age"] []).primary_keys.Nodup
    ∧ (CommitToKg.nonNullKeys ⟨"person", ["name", "age"], ["name", "age"], []⟩).Nodup
    ∧ (∀ pk ∈ (VertexLabel.mk "person" ["name", "age"] ["name", "age"] []).primary_keys,
        KeyWF (CommitToKg.propertyLabelMap
          ⟨[⟨"name", "TEXT", "SINGLE"⟩, ⟨"age", "INT", "SINGLE"⟩],
           [⟨"person", ["name", "age"], ["name", "age"], []⟩], []⟩) pk)
    ∧ (∀ k ∈ CommitToKg.nonNullKeys ⟨"person", ["name", "age"], ["name", "age"], []⟩,
        KeyWF (CommitToKg.propertyLabelMap
          ⟨[⟨"name", "TEXT", "SINGLE"⟩, ⟨"age", "INT", "SINGLE"⟩],
           [⟨"person", ["name", "age"], ["name", "age"], []⟩], []⟩) k)
    ∧ (∀ p ∈ (Vertex.mk "person" [("name", .pyStr "Alice")] none).properties,
        PropOk (CommitToKg.propertyLabelMap
          ⟨[⟨"name", "TEXT", "SINGLE"⟩, ⟨"age", "INT", "SINGLE"⟩],
           [⟨"person", ["name", "age"], ["name", "age"], []⟩], []⟩) p)
    ∧ (∃ props₂ v',
        CommitToKg.processVertex (fun _ => .ok (.pyStr "v1"))
          (CommitToKg.vertexLabelMap
            ⟨[⟨"name", "TEXT", "SINGLE"⟩, ⟨"age", "INT", "SINGLE"⟩],
             [⟨"person", ["name", "age"], ["name", "age"], []⟩], []⟩)
          (CommitToKg.propertyLabelMap
            ⟨[⟨"name", "TEXT", "SINGLE"⟩, ⟨"age", "INT", "SINGLE"⟩],
             [⟨"person", ["name", "age"], ["name", "age"], []⟩], []⟩)
          (Vertex.mk "person" [("name", .pyStr "Alice")] none)
          = .ok (v', [CommitToKg.Call.addVertex
              (Vertex.mk "person" [("name", .pyStr "Alice")] none).label props₂ none])
        ∧ v'.properties = props₂
        ∧ (∀ pk ∈ (VertexLabel.mk "person" ["name", "age"] ["name", "age"] []).primary_keys,
            MissingOrEmpty (Vertex.mk "person" [("name", .pyStr "Alice")] none).properties pk →
            ∃ pkey, CommitToKg.propertyLabelMap
                ⟨[⟨"name", "TEXT", "SINGLE"⟩, ⟨"age", "INT", "SINGLE"⟩],
                 [⟨"person", ["name", "age"], ["name", "age"], []⟩], []⟩ pk = some pkey
              ∧ dGet props₂ pk = some (defaultFor pkey))
        ∧ (∀ k ∈ CommitToKg.nonNullKeys ⟨"person", ["name", "age"], ["name", "age"], []⟩,
            dHasKey (Vertex.mk "person" [("name", .pyStr "Alice")] none).properties k = false →
            ∃ pkey, CommitToKg.propertyLabelMap
                ⟨[⟨"name", "TEXT", "SINGLE"⟩, ⟨"age", "INT", "SINGLE"⟩],
                 [⟨"person", ["name", "age"], ["name", "age"], []⟩], []⟩ k = some pkey
              ∧ dGet props₂ k = some (defaultFor pkey)))
    ∧ CommitToKg.processVertex (fun _ => .ok (.pyStr "v1"))
        (CommitToKg.vertexLabelMap
          ⟨[⟨"name", "TEXT", "SINGLE"⟩, ⟨"age", "INT", "SINGLE"⟩],
           [⟨"person", ["name", "age"], ["name", "age"], []⟩], []⟩)
        (CommitToKg.propertyLabelMap
          ⟨[⟨"name", "TEXT", "SINGLE"⟩, ⟨"age", "INT", "SINGLE"⟩],
           [⟨"person", ["name", "age"], ["name", "age"], []⟩], []⟩)
        (Vertex.mk "person" [("name", .pyStr "Alice")] none)
      = .ok (Vertex.mk "person" [("name", .pyStr "Alice"), ("age", .pyInt 0)]
               (some (.pyStr "v1")),
             [CommitToKg.Call.addVertex "person"
               [("name", .pyStr "Alice"), ("age", .pyInt 0)] none]) :=
  ⟨rfl, by decide, by decide, by decide, by decide, by decide, by decide,
   C2_multi_pk_defaults_and_submit (fun _ => .ok (.pyStr "v1"))
     ⟨[⟨"name", "TEXT", "SINGLE"⟩, ⟨"age", "INT", "SINGLE"⟩],
      [⟨"person", ["name", "age"], ["name", "age"], []⟩], []⟩
     (Vertex.mk "person" [("name", .pyStr "Alice")] none)
     ⟨"person", ["name", "age"], ["name", "age"], []⟩
     rfl (by decide) (by decide) (by decide) (by decide) (by decide) (by decide),
   rfl⟩

/-- Witness for the C3 amended theorem: a recognized data type where the
equivalence holds, and an unrecognized one where the SINGLE check raises. -/
theorem C3_amended_witness :
    "TEXT" ∈ recognizedDataTypes
    ∧ (CommitToKg._check_property_data_type "TEXT" "SINGLE" (.pyStr "x") = .ok true
        ↔ specTypeOk "TEXT" "SINGLE" (.pyStr "x"))
    ∧ "WEIRD" ∉ recognizedDataTypes
    ∧ CommitToKg.checkSingle "WEIRD" (.pyInt 3) = .error "Unknown data type: WEIRD" :=
  ⟨by decide,
   C3_amended_typecheck.1 "TEXT" "SINGLE" (.pyStr "x") (by decide),
   by decide,
   C3_amended_typecheck.2.1 "WEIRD" (.pyInt 3) (by decide)⟩

/-- Witness for C4: "age" is declared INT but carries a string, so the vertex
is skipped without a store call. -/
theorem C4_witness :
    CommitToKg.vertexLabelMap
        ⟨[⟨"name", "TEXT", "SINGLE"⟩, ⟨"age", "INT", "SINGLE"⟩],
         [⟨"person", ["name", "age"], ["name"], ["age"]⟩], []⟩
        (Vertex.mk "person" [("name", .pyStr "Bob"), ("age", .pyStr "old")] none).label
      = some ⟨"person", ["name", "age"], ["name"], ["age"]⟩
    ∧ (∀ pk ∈ (VertexLabel.mk "person" ["name", "age"] ["name"] ["age"]).primary_keys,
        pyTruthy ((dGet (Vertex.mk "person"
          [("name", .pyStr "Bob"), ("age", .pyStr "old")] none).properties pk).getD .pyNone)
          = true)
    ∧ (∀ k ∈ CommitToKg.nonNullKeys ⟨"person", ["name", "age"], ["name"], ["age"]⟩,
        dHasKey (Vertex.mk "person"
          [("name", .pyStr "Bob"), ("age", .pyStr "old")] none).properties k = true)
    ∧ (∀ p ∈ (Vertex.mk "person"
          [("name", .pyStr "Bob"), ("age", .pyStr "old")] none).properties,
        PropNoRaise (CommitToKg.propertyLabelMap
          ⟨[⟨"name", "TEXT", "SINGLE"⟩, ⟨"age", "INT", "SINGLE"⟩],
           [⟨"person", ["name", "age"], ["name"], ["age"]⟩], []⟩) p)
    ∧ (∃ p ∈ (Vertex.mk "person"
          [("name", .pyStr "Bob"), ("age", .pyStr "old")] none).properties,
        PropBad (CommitToKg.propertyLabelMap
          ⟨[⟨"name", "TEXT", "SINGLE"⟩, ⟨"age", "INT", "SINGLE"⟩],
           [⟨"person", ["name", "age"], ["name"], ["age"]⟩], []⟩) p)
    ∧ CommitToKg.processVertices (fun _ => .ok (.pyStr "v1"))
        (CommitToKg.vertexLabelMap
          ⟨[⟨"name", "TEXT", "SINGLE"⟩, ⟨"age", "INT", "SINGLE"⟩],
           [⟨"person", ["name", "age"], ["name"], ["age"]⟩], []⟩)
        (CommitToKg.propertyLabelMap
          ⟨[⟨"name", "TEXT", "SINGLE"⟩, ⟨"age", "INT", "SINGLE"⟩],
           [⟨"person", ["name", "age"], ["name"], ["age"]⟩], []⟩) []
      = ([], .ok [])
    ∧ CommitToKg.processVertex (fun _ => .ok (.pyStr "v1"))
        (CommitToKg.vertexLabelMap
          ⟨[⟨"name", "TEXT", "SINGLE"⟩, ⟨"age", "INT", "SINGLE"⟩],
           [⟨"person", ["name", "age"], ["name"], ["age"]⟩], []⟩)
        (CommitToKg.propertyLabelMap
          ⟨[⟨"name", "TEXT", "SINGLE"⟩, ⟨"age", "INT", "SINGLE"⟩],
           [⟨"person", ["name", "age"], ["name"], ["age"]⟩], []⟩)
        (Vertex.mk "person" [("name", .pyStr "Bob"), ("age", .pyStr "old")] none)
      = .ok (Vertex.mk "person" [("name", .pyStr "Bob"), ("age", .pyStr "old")] none, []) :=
  ⟨rfl, by decide, by decide, by decide, by decide, rfl,
   (C4_type_mismatch_vertex_skipped (fun _ => .ok (.pyStr "v1"))
      ⟨[⟨"name", "TEXT", "SINGLE"⟩, ⟨"age", "INT", "SINGLE"⟩],
       [⟨"person", ["name", "age"], ["name"], ["age"]⟩], []⟩
      [] (Vertex.mk "person" [("name", .pyStr "Bob"), ("age", .pyStr "old")] none) []
      ⟨"person", ["name", "age"], ["name"], ["age"]⟩ [] []
      rfl (by decide) (by decide) (by decide) (by decide) rfl).1⟩

/-- Witness for C5: empty vertex and edge lists with non-empty triples and no
schema raise the empty-input error with an empty call trace. -/
theorem C5_witness :
    (CommitToKg.RunData.mk none [] [] [("a", "b", "c")]).vertices = []
    ∧ (CommitToKg.RunData.mk none [] [] [("a", "b", "c")]).edges = []
    ∧ CommitToKg.run (fun _ => .ok .pyNone) ⟨none, [], [], [("a", "b", "c")]⟩
      = ([], .error "Both vertices and edges input are empty.") :=
  ⟨rfl, rfl,
   C5_empty_input_raises_untouched (fun _ => .ok .pyNone)
     ⟨none, [], [], [("a", "b", "c")]⟩ rfl rfl⟩

/-- Witness for C8 at a concrete query, score, topK and candidate lists. -/
theorem C8_witness :
    MergeDedupRerank.IsSetList ["a", "b", "a"] ["a", "b"]
    ∧ MergeDedupRerank.IsSetList ["c"] ["c"]
    ∧ ((MergeDedupRerank.run (fun _ _ => (0 : ℚ)) 1 ["a", "b"] ["c"]
          ⟨"q", ["a", "b", "a"], ["c"]⟩).vector_result.length ≤ 1
      ∧ (MergeDedupRerank.run (fun _ _ => (0 : ℚ)) 1 ["a", "b"] ["c"]
          ⟨"q", ["a", "b", "a"], ["c"]⟩).vector_result.Nodup
      ∧ (∀ x ∈ (MergeDedupRerank.run (fun _ _ => (0 : ℚ)) 1 ["a", "b"] ["c"]
          ⟨"q", ["a", "b", "a"], ["c"]⟩).vector_result,
          x ∈ (MergeDedupRerank.RerankContext.mk "q" ["a", "b", "a"] ["c"]).vector_result)
      ∧ List.Pairwise (fun a b => (fun _ _ => (0 : ℚ))
            (MergeDedupRerank.RerankContext.mk "q" ["a", "b", "a"] ["c"]).query b
          ≤ (fun _ _ => (0 : ℚ))
            (MergeDedupRerank.RerankContext.mk "q" ["a", "b", "a"] ["c"]).query a)
          (MergeDedupRerank.run (fun _ _ => (0 : ℚ)) 1 ["a", "b"] ["c"]
            ⟨"q", ["a", "b", "a"], ["c"]⟩).vector_result) :=
  ⟨by constructor <;> decide, by constructor <;> decide,
   (C8_rerank_output_bounded (fun _ _ => (0 : ℚ)) 1 ["a", "b"] ["c"]
      ⟨"q", ["a", "b", "a"], ["c"]⟩
      (by constructor <;> decide) (by constructor <;> decide)).1⟩

/-- Witness for C9: the property name "hobby" is absent from the schema's
propertykeys, and the commit aborts with a KeyError. -/
theorem C9_witness :
    CommitToKg.vertexLabelMap
        ⟨[⟨"name", "TEXT", "SINGLE"⟩], [⟨"person", ["name"], ["name"], []⟩], []⟩
        (Vertex.mk "person" [("name", .pyStr "Ann"), ("hobby", .pyStr "chess")] none).label
      = some ⟨"person", ["name"], ["name"], []⟩
    ∧ (∀ pk ∈ (VertexLabel.mk "person" ["name"] ["name"] []).primary_keys,
        pyTruthy ((dGet (Vertex.mk "person"
          [("name", .pyStr "Ann"), ("hobby", .pyStr "chess")] none).properties pk).getD
          .pyNone) = true)
    ∧ (∀ k ∈ CommitToKg.nonNullKeys ⟨"person", ["name"], ["name"], []⟩,
        dHasKey (Vertex.mk "person"
          [("name", .pyStr "Ann"), ("hobby", .pyStr "chess")] none).properties k = true)
    ∧ (Vertex.mk "person" [("name", .pyStr "Ann"), ("hobby", .pyStr "chess")] none).properties
      = [("name", .pyStr "Ann")] ++ ("hobby", .pyStr "chess") :: []
    ∧ (∀ p ∈ ([("name", .pyStr "Ann")] : PropDict),
        PropOk (CommitToKg.propertyLabelMap
          ⟨[⟨"name", "TEXT", "SINGLE"⟩], [⟨"person", ["name"], ["name"], []⟩], []⟩) p)
    ∧ CommitToKg.propertyLabelMap
        ⟨[⟨"name", "TEXT", "SINGLE"⟩], [⟨"person", ["name"], ["name"], []⟩], []⟩ "hobby"
      = none
    ∧ CommitToKg.processVertex (fun _ => .ok (.pyStr "v1"))
        (CommitToKg.vertexLabelMap
          ⟨[⟨"name", "TEXT", "SINGLE"⟩], [⟨"person", ["name"], ["name"], []⟩], []⟩)
        (CommitToKg.propertyLabelMap
          ⟨[⟨"name", "TEXT", "SINGLE"⟩], [⟨"person", ["name"], ["name"], []⟩], []⟩)
        (Vertex.mk "person" [("name", .pyStr "Ann"), ("hobby", .pyStr "chess")] none)
      = .error ("KeyError: " ++ "hobby") :=
  ⟨rfl, by decide, by decide, rfl, by decide, rfl,
   (C9_unknown_property_aborts_commit (fun _ => .ok (.pyStr "v1"))
      ⟨[⟨"name", "TEXT", "SINGLE"⟩], [⟨"person", ["name"], ["name"], []⟩], []⟩
      (Vertex.mk "person" [("name", .pyStr "Ann"), ("hobby", .pyStr "chess")] none) []
      ⟨"person", ["name"], ["name"], []⟩
      [("name", .pyStr "Ann")] "hobby" (.pyStr "chess") []
      rfl (by decide) (by decide) rfl (by decide) rfl).1⟩

/-- Witness for C10: no schema, one vertex, no triples — only the five generic
schema calls are made and the data is returned unchanged. -/
theorem C10_witness :
    (CommitToKg.RunData.mk none [Vertex.mk "vertex1" [] none] [] []).schema = none
    ∧ (CommitToKg.RunData.mk none [Vertex.mk "vertex1" [] none] [] []).vertices ≠ []
    ∧ (CommitToKg.RunData.mk none [Vertex.mk "vertex1" [] none] [] []).triples = []
    ∧ CommitToKg.run (fun _ => .ok .pyNone) ⟨none, [Vertex.mk "vertex1" [] none], [], []⟩
      = (CommitToKg.genericSchemaCalls,
         .ok ⟨none, [Vertex.mk "vertex1" [] none], [], []⟩) :=
  ⟨rfl, fun h => List.cons_ne_nil _ _ h, rfl,
   (C10_schema_free_ignores_vertices_edges (fun _ => .ok .pyNone)
      ⟨none, [Vertex.mk "vertex1" [] none], [], []⟩ rfl).2.2
     (fun h => List.cons_ne_nil _ _ h) rfl⟩
